import Mathlib

/-!
# 8mosind: device communication and serialization layer

A shallow embedding of `src/mosfet.c` / `src/mosfet.h` (the command-line tool for the
Sequent Microsystems 8-MOSFET board) together with theorems about the register codec,
the board locator, the write-verify-retry loops, the serial-link configuration record,
the self test and the bus lock.

Conventions of the embedding.

* The raw bus primitives `i2cSetup`, `i2cMem8Read`, `i2cMem8Write` live in `comm.c`,
  which is not part of the modelled sources.  They are a parameter: a `Bus σ` gives,
  for a bus state `σ`, the return code (and the bytes read) of each primitive together
  with the next bus state.
* Every call of a primitive is appended to a transaction log, and every `printf` to an
  output log, both carried in a `World`.
* `int` values are `Int`; `u8` / `uint16_t` values are `Nat` reduced modulo `2^8` /
  `2^16` at every store; `memcpy` of a `uint16_t` is little-endian (the host is a
  Raspberry Pi).
* `float` values are finite binary values `m * 2^e`; products and quotients are rounded
  to binary32, to nearest, ties to even.
* A loop that the source does not bound takes a `fuel` argument and returns `none`
  when the fuel is used up with the loop still running.
* The POSIX semaphore and clock calls, and the key-press thread of the self test, are
  parameters as well (`SemOps`, `TestEnv`).
-/

namespace Mosfet8

/-! ## Constants of `mosfet.h` and `mosfet.c` -/

def RETRY_TIMES : Nat := 10
def MOSFET8_INPORT_REG_ADD : Nat := 0x00
def MOSFET8_OUTPORT_REG_ADD : Nat := 0x01
def MOSFET8_POLINV_REG_ADD : Nat := 0x02
def MOSFET8_CFG_REG_ADD : Nat := 0x03
def PWM_SIZE_B : Nat := 2
def MOSFET_NO : Nat := 8

def I2C_MEM_DIAG_3V3_MV_ADD : Nat := 4
def I2C_MEM_DIAG_TEMPERATURE_ADD : Nat := I2C_MEM_DIAG_3V3_MV_ADD + 2
def I2C_MEM_PWM1 : Nat := I2C_MEM_DIAG_TEMPERATURE_ADD + 1
def I2C_MODBUS_SETINGS_ADD : Nat := I2C_MEM_PWM1 + MOSFET_NO * PWM_SIZE_B

def CHANNEL_NR_MIN : Nat := 1
def MOSFET_CH_NR_MAX : Nat := 8

def ERROR : Int := -1
def OK : Int := 0
def FAIL : Int := -1

def MOSFET8_HW_I2C_BASE_ADD : Int := 0x38
def MOSFET8_HW_I2C_ALTERNATE_BASE_ADD : Int := 0x20

def MOS_MIN_FREQ : Int := 16
def MOS_MAX_FREQ : Int := 1000

/-- The enum `OutStateEnumType` of `mosfet.h`: `OFF = 0`, `ON = 1`, `STATE_COUNT = 2`. -/
inductive OutStateEnumType
  | OFF
  | ON
  | STATE_COUNT
deriving DecidableEq

open OutStateEnumType

def mosfetMaskRemap : List Nat := [0x01, 0x02, 0x04, 0x08, 0x10, 0x20, 0x40, 0x80]
def mosfetChRemap : List Nat := [0, 1, 2, 3, 4, 5, 6, 7]

/-- Truncation to `u8`. -/
def u8 (n : Nat) : Nat := n % 256

/-- Truncation to `uint16_t`. -/
def u16 (n : Nat) : Nat := n % 65536

/-! ## The bus and the world -/

/-- One call of a bus primitive. -/
inductive Txn
  | setup (add : Int)
  | read (dev : Int) (reg : Nat) (size : Nat)
  | write (dev : Int) (reg : Nat) (bytes : List Nat)
deriving DecidableEq

/-- The bus primitives of `comm.c`, as functions of a bus state.  `i2cSetup` returns the
device handle (or `-1`); `i2cMem8Read` returns its return code and the bytes it put in
the buffer; `i2cMem8Write` returns its return code. -/
structure Bus (σ : Type) where
  i2cSetup : σ → Int → Int × σ
  i2cMem8Read : σ → Int → Nat → Nat → Int × List Nat × σ
  i2cMem8Write : σ → Int → Nat → List Nat → Int × σ

/-- The bus state, the log of bus transactions issued so far, and what was printed. -/
structure World (σ : Type) where
  bus : σ
  log : List Txn
  out : List String

variable {σ : Type}

def printf (msg : String) (w : World σ) : World σ :=
  { w with out := w.out ++ [msg] }

def i2cSetup (B : Bus σ) (add : Int) (w : World σ) : Int × World σ :=
  let r := B.i2cSetup w.bus add
  (r.1, { w with bus := r.2, log := w.log ++ [Txn.setup add] })

def i2cMem8Read (B : Bus σ) (dev : Int) (add size : Nat) (w : World σ) :
    Int × List Nat × World σ :=
  let r := B.i2cMem8Read w.bus dev add size
  (r.1, r.2.1, { w with bus := r.2.2, log := w.log ++ [Txn.read dev add size] })

def i2cMem8Write (B : Bus σ) (dev : Int) (add : Nat) (buff : List Nat) (w : World σ) :
    Int × World σ :=
  let r := B.i2cMem8Write w.bus dev add buff
  (r.1, { w with bus := r.2, log := w.log ++ [Txn.write dev add buff] })

/-- Byte `i` of a buffer just filled by a read. -/
def buffAt (buff : List Nat) (i : Nat) : Nat := u8 (buff.getD i 0)

/-! ## Register codec (`mosfet.c`, lines 181-383) -/

/-- `mosfetToIO`: the loop over `i = 0..7` adds `mosfetMaskRemap[i]` for every set bit
of `mosfet`; the result is `0xff ^ val`. -/
def mosfetToIO (mosfet : Nat) : Nat :=
  let val := (List.range 8).foldl
    (fun val i => if mosfet &&& (1 <<< i) ≠ 0 then u8 (val + mosfetMaskRemap.getD i 0) else val) 0
  u8 (0xff ^^^ val)

/-- `IOToMosfet`: `io ^= 0xff`, then the loop over `i = 0..7` adds `1 << i` for every
`i` with `io & mosfetMaskRemap[i]` set. -/
def IOToMosfet (io : Nat) : Nat :=
  let io := u8 (io ^^^ 0xff)
  (List.range 8).foldl
    (fun val i => if io &&& mosfetMaskRemap.getD i 0 ≠ 0 then u8 (val + (1 <<< i)) else val) 0

/-- `mosfetChSet`.  `buff[0] &= ~(1 << n)` on a `u8` keeps the low eight bits of the
complement only, that is `buff[0] & (0xff ^ (1 << n))`. -/
def mosfetChSet (B : Bus σ) (dev : Int) (channel : Nat) (state : OutStateEnumType)
    (w : World σ) : Int × World σ :=
  if channel < CHANNEL_NR_MIN ∨ channel > MOSFET_CH_NR_MAX then
    (ERROR, printf "Invalid mosfet nr!\n" w)
  else
    let r := i2cMem8Read B dev MOSFET8_OUTPORT_REG_ADD 1 w
    if FAIL = r.1 then (FAIL, r.2.2)
    else
      let b := buffAt r.2.1 0
      match state with
      | ON =>
        i2cMem8Write B dev MOSFET8_OUTPORT_REG_ADD
          [u8 (b &&& (0xff ^^^ (1 <<< mosfetChRemap.getD (channel - 1) 0)))] r.2.2
      | OFF =>
        i2cMem8Write B dev MOSFET8_OUTPORT_REG_ADD
          [u8 (b ||| (1 <<< mosfetChRemap.getD (channel - 1) 0))] r.2.2
      | STATE_COUNT => (ERROR, printf "Invalid mosfet state!\n" r.2.2)

/-- `mosfetChGet`.  `stateIn` is the value `*state` holds before the call; it is
returned unchanged on the error paths.  (The pointer is never `NULL` in this program.) -/
def mosfetChGet (B : Bus σ) (dev : Int) (channel : Nat) (stateIn : OutStateEnumType)
    (w : World σ) : Int × OutStateEnumType × World σ :=
  if channel < CHANNEL_NR_MIN ∨ channel > MOSFET_CH_NR_MAX then
    (ERROR, stateIn, printf "Invalid mosfet nr!\n" w)
  else
    let r := i2cMem8Read B dev MOSFET8_OUTPORT_REG_ADD 1 w
    if FAIL = r.1 then (ERROR, stateIn, r.2.2)
    else if buffAt r.2.1 0 &&& (1 <<< mosfetChRemap.getD (channel - 1) 0) ≠ 0 then
      (OK, OFF, r.2.2)
    else
      (OK, ON, r.2.2)

/-- `mosfetSet`: `buff[0] = mosfetToIO(0xff & val)`, one write, no read. -/
def mosfetSet (B : Bus σ) (dev : Int) (val : Int) (w : World σ) : Int × World σ :=
  i2cMem8Write B dev MOSFET8_OUTPORT_REG_ADD [ mosfetToIO (val % 256).toNat] w

/-- `mosfetGet`.  `valIn` is the value `*val` holds before the call. -/
def mosfetGet (B : Bus σ) (dev : Int) (valIn : Int) (w : World σ) : Int × Int × World σ :=
  let r := i2cMem8Read B dev MOSFET8_OUTPORT_REG_ADD 1 w
  if FAIL = r.1 then (ERROR, valIn, r.2.2)
  else (OK, (IOToMosfet (buffAt r.2.1 0) : Int), r.2.2)

/-- `mosfetSetFrequency`.  The register offset `I2C_PWM_FREQ` is not declared in
`mosfet.h`; it is a parameter. -/
def mosfetSetFrequency (B : Bus σ) (I2C_PWM_FREQ : Nat) (dev : Int) (val : Int)
    (w : World σ) : Int × World σ :=
  if val < MOS_MIN_FREQ ∨ val > MOS_MAX_FREQ then
    (ERROR, printf "Frequency out of range [16..1000]\n" w)
  else
    let raw := (val % 65536).toNat
    i2cMem8Write B dev I2C_PWM_FREQ [raw % 256, raw / 256] w

/-- `mosfetGetFrequency`.  `valIn` is the value `*val` holds before the call. -/
def mosfetGetFrequency (B : Bus σ) (I2C_PWM_FREQ : Nat) (dev : Int) (valIn : Int)
    (w : World σ) : Int × Int × World σ :=
  let r := i2cMem8Read B dev I2C_PWM_FREQ 2 w
  if FAIL = r.1 then (ERROR, valIn, r.2.2)
  else (OK, ((buffAt r.2.1 0 + 256 * buffAt r.2.1 1 : Nat) : Int), r.2.2)

/-! ## Single-precision values

`float` values are modelled exactly: a finite value is `m * 2^e` with integers `m`, `e`,
and the two arithmetic operations the program applies to a `float` (`value * 10`,
`(float)raw / 10`) return the binary32 value nearest to the exact result, ties to even.
NaN, infinities and overflow are not modelled; no operand here exceeds `65535`. -/

/-- A finite binary floating-point value `m * 2^e`. -/
structure CFloat where
  m : Int
  e : Int
deriving DecidableEq

namespace CFloat

def ofInt (n : Int) : CFloat := ⟨n, 0⟩

/-- The numerator of `a` over the denominator `2^(-k)`, for `k ≤ a.e`. -/
def scaled (a : CFloat) (k : Int) : Int := a.m * 2 ^ (a.e - k).toNat

/-- The comparison `a < b`. -/
def lt (a b : CFloat) : Bool :=
  decide (a.scaled (min a.e b.e) < b.scaled (min a.e b.e))

/-- The comparison `a != b` (by value). -/
def ne (a b : CFloat) : Bool :=
  decide (a.scaled (min a.e b.e) ≠ b.scaled (min a.e b.e))

/-- The integer nearest to `num / den`, ties to even. -/
def roundQuot (num den : Nat) : Nat :=
  let q := num / den
  let r := num % den
  if 2 * r < den then q
  else if den < 2 * r then q + 1
  else if q % 2 = 0 then q else q + 1

def log2Aux : Nat → Nat → Nat
  | 0, _ => 0
  | fuel + 1, n => if n < 2 then 0 else log2Aux fuel (n / 2) + 1

/-- The position of the highest set bit of `n`. -/
def log2 (n : Nat) : Nat := log2Aux n n

/-- The integer `k` with `2^k ≤ num / den < 2^(k+1)`, for positive `num`, `den`. -/
def ilog2 (num den : Nat) : Int :=
  let a : Int := (log2 num : Int) - (log2 den : Int)
  if a ≥ 0 then (if den * 2 ^ a.toNat ≤ num then a else a - 1)
  else (if den ≤ num * 2 ^ (-a).toNat then a else a - 1)

/-- The binary32 value nearest to `num / den`, ties to even: 24 significant bits, the
least exponent of the unit in the last place being `-149`. -/
def round32 (num den : Nat) : CFloat :=
  if num = 0 then ⟨0, 0⟩
  else
    let u := max (ilog2 num den) (-126) - 23
    if u ≥ 0 then ⟨roundQuot num (den * 2 ^ u.toNat), u⟩
    else ⟨roundQuot (num * 2 ^ (-u).toNat) den, u⟩

/-- The product `a * n` in binary32, for `a ≥ 0`. -/
def mulNat (a : CFloat) (n : Nat) : CFloat :=
  if a.e ≥ 0 then round32 (a.m.toNat * n * 2 ^ a.e.toNat) 1
  else round32 (a.m.toNat * n) (2 ^ (-a.e).toNat)

/-- The quotient `a / n` in binary32, for `a ≥ 0`. -/
def divNat (a : CFloat) (n : Nat) : CFloat :=
  if a.e ≥ 0 then round32 (a.m.toNat * 2 ^ a.e.toNat) n
  else round32 a.m.toNat (n * 2 ^ (-a.e).toNat)

/-- The conversion to an integer type: truncation toward zero. -/
def trunc (a : CFloat) : Int :=
  if a.e ≥ 0 then a.m * 2 ^ a.e.toNat else Int.tdiv a.m (2 ^ (-a.e).toNat)

/-- The rational number a value stands for. -/
def toRat (a : CFloat) : ℚ := a.m * (2 : ℚ) ^ a.e

end CFloat

/-! ## PWM duty (`mosfet.c`, lines 242-323) -/

/-- `mosfetChSetPwm`: clamp to `[0, 100]`, `raw = (uint16_t)(value * 10)`, two bytes
written at `I2C_MEM_PWM1 + PWM_SIZE_B * (channel - 1)`. -/
def mosfetChSetPwm (B : Bus σ) (dev : Int) (channel : Nat) (value : CFloat) (w : World σ) :
    Int × World σ :=
  if channel < CHANNEL_NR_MIN ∨ channel > MOSFET_CH_NR_MAX then
    (ERROR, printf "Invalid mosfet nr!\n" w)
  else
    let value := if CFloat.lt (CFloat.ofInt 100) value then CFloat.ofInt 100 else value
    let value := if CFloat.lt value (CFloat.ofInt 0) then CFloat.ofInt 0 else value
    let raw := u16 (value.mulNat 10).trunc.toNat
    i2cMem8Write B dev (I2C_MEM_PWM1 + PWM_SIZE_B * (channel - 1)) [raw % 256, raw / 256] w

/-- `mosfetChGetPwm`: `*value = (float)raw / 10`.  `valueIn` is the value `*value` holds
before the call. -/
def mosfetChGetPwm (B : Bus σ) (dev : Int) (channel : Nat) (valueIn : CFloat) (w : World σ) :
    Int × CFloat × World σ :=
  if channel < CHANNEL_NR_MIN ∨ channel > MOSFET_CH_NR_MAX then
    (ERROR, valueIn, printf "Invalid mosfet nr!\n" w)
  else
    let r := i2cMem8Read B dev (I2C_MEM_PWM1 + PWM_SIZE_B * (channel - 1)) 2 w
    if FAIL = r.1 then (ERROR, valueIn, r.2.2)
    else
      let raw := buffAt r.2.1 0 + 256 * buffAt r.2.1 1
      (OK, CFloat.divNat (CFloat.ofInt raw) 10, r.2.2)

/-! ## Serial-link configuration (`mosfet.c`, lines 385-444; `mosfet.h`, lines 70-78)

`ModbusSetingsType` is a packed struct of bit-fields.  Its byte image is the one the
compiler of the target (GCC, little-endian ARM) lays out: the fields follow each other
in declaration order from the least significant bit of a 40-bit little-endian word. -/

/-- The struct `ModbusSetingsType`: `mbBaud:24`, `mbType:4`, `mbParity:2`, `mbStopB:2`,
`add:8`. -/
structure ModbusSetingsType where
  mbBaud : Nat
  mbType : Nat
  mbParity : Nat
  mbStopB : Nat
  add : Nat
deriving DecidableEq

/-- The 40-bit word that holds the five bit-fields. -/
def ModbusSetingsType.word (s : ModbusSetingsType) : Nat :=
  s.mbBaud + s.mbType * 2 ^ 24 + s.mbParity * 2 ^ 28 + s.mbStopB * 2 ^ 30 + s.add * 2 ^ 32

/-- `memcpy(buff, &settings, sizeof(ModbusSetingsType))`: the five bytes of the word,
least significant first. -/
def ModbusSetingsType.toBytes (s : ModbusSetingsType) : List Nat :=
  [s.word % 256, s.word / 2 ^ 8 % 256, s.word / 2 ^ 16 % 256, s.word / 2 ^ 24 % 256,
   s.word / 2 ^ 32 % 256]

/-- `memcpy(&settings, buff, sizeof(ModbusSetingsType))`: the bit-fields of the word
the five bytes make. -/
def ModbusSetingsType.ofBytes (buff : List Nat) : ModbusSetingsType :=
  let v := buffAt buff 0 + buffAt buff 1 * 2 ^ 8 + buffAt buff 2 * 2 ^ 16 +
    buffAt buff 3 * 2 ^ 24 + buffAt buff 4 * 2 ^ 32
  { mbBaud := v % 2 ^ 24, mbType := v / 2 ^ 24 % 16, mbParity := v / 2 ^ 28 % 4,
    mbStopB := v / 2 ^ 30 % 4, add := v / 2 ^ 32 % 256 }

/-- `cfg485Set`; the stores into the bit-fields keep the low bits of each value. -/
def cfg485Set (B : Bus σ) (dev : Int) (mode baud stopB parity add : Nat) (w : World σ) :
    Int × World σ :=
  if baud > 921600 ∨ baud < 1200 then
    (ERROR, printf "Invalid RS485 Baudrate [1200, 921600]!\n" w)
  else if mode > 1 then
    (ERROR, printf "Invalid RS485 mode : 0 = disable, 1= Modbus RTU (Slave)!\n" w)
  else if stopB < 1 ∨ stopB > 2 then
    (ERROR, printf "Invalid RS485 stop bits [1, 2]!\n" w)
  else if parity > 2 then
    (ERROR, printf "Invalid RS485 parity 0 = none; 1 = even; 2 = odd! \n" w)
  else
    let w1 := if add < 1 then printf "Invalid MODBUS device address: [1, 255]!\n" w else w
    let settings : ModbusSetingsType :=
      { mbBaud := baud % 2 ^ 24, mbType := mode % 16, mbParity := parity % 4,
        mbStopB := stopB % 4, add := add % 256 }
    let r := i2cMem8Write B dev I2C_MODBUS_SETINGS_ADD settings.toBytes w1
    if OK ≠ r.1 then (ERROR, printf "Fail to write RS485 settings!\n" r.2)
    else (OK, r.2)

/-- The line `cfg485Get` prints for the five values, in the order of its format. -/
def cfg485Line (mbType mbBaud mbStopB mbParity add : Nat) : String :=
  "<mode> <baudrate> <stopbits> <parity> <add> " ++ toString mbType ++ " " ++
    toString mbBaud ++ " " ++ toString mbStopB ++ " " ++ toString mbParity ++ " " ++
    toString add ++ "\n"

/-- `cfg485Get`. -/
def cfg485Get (B : Bus σ) (dev : Int) (w : World σ) : Int × World σ :=
  let r := i2cMem8Read B dev I2C_MODBUS_SETINGS_ADD 5 w
  if OK ≠ r.1 then (ERROR, printf "Fail to read RS485 settings!\n" r.2.2)
  else
    let settings := ModbusSetingsType.ofBytes r.2.1
    (OK, printf (cfg485Line settings.mbType settings.mbBaud settings.mbStopB
      settings.mbParity settings.add) r.2.2)

/-! ## Board locator (`mosfet.c`, lines 448-496) -/

/-- `a ^ b` for a non-negative `int` `a`. -/
def xorInt (a : Int) (b : Nat) : Int := ((a.toNat ^^^ b : Nat) : Int)

/-- Lines 479-495 of `doBoardInit`, reached from either successful probe: `cfg` is
`buff[0]` as the probe read it. -/
def doBoardInitExpander (B : Bus σ) (dev : Int) (cfg : Nat) (w : World σ) : Int × World σ :=
  if cfg ≠ 0 then
    let w1 := i2cMem8Write B dev MOSFET8_CFG_REG_ADD [0] w
    if 0 > w1.1 then (ERROR, w1.2)
    else
      let w2 := i2cMem8Write B dev MOSFET8_OUTPORT_REG_ADD [0xff] w1.2
      if 0 > w2.1 then (ERROR, w2.2)
      else (dev, w2.2)
  else (dev, w)

/-- `doBoardInit`. -/
def doBoardInit (B : Bus σ) (stack : Int) (w : World σ) : Int × World σ :=
  if stack < 0 ∨ stack > 7 then (ERROR, printf "Invalid stack level [0..7]!" w)
  else
    let s1 := i2cSetup B (xorInt (stack + MOSFET8_HW_I2C_BASE_ADD) 0x07) w
    if s1.1 = -1 then (ERROR, s1.2)
    else
      let r1 := i2cMem8Read B s1.1 MOSFET8_CFG_REG_ADD 1 s1.2
      if ERROR = r1.1 then
        let s2 := i2cSetup B (xorInt (stack + MOSFET8_HW_I2C_ALTERNATE_BASE_ADD) 0x07) r1.2.2
        if s2.1 = -1 then (ERROR, s2.2)
        else
          let r2 := i2cMem8Read B s2.1 MOSFET8_CFG_REG_ADD 1 s2.2
          if ERROR = r2.1 then
            (ERROR, printf ("8-MOSFETS card id " ++ toString stack ++ " not detected\n") r2.2.2)
          else doBoardInitExpander B s2.1 (buffAt r2.2.1 0) r2.2.2
      else doBoardInitExpander B s1.1 (buffAt r1.2.1 0) r1.2.2

/-! ## Commands (`mosfet.c`, lines 521-696 and 801-828)

The command functions take `argc` and the arguments already converted as the code
converts them: `stack = atoi(argv[1])`, `arg3 = atoi(argv[3])`, and so on. -/

/-- How a `while` loop of a command ends: the function returned from inside the loop,
or the loop condition became false with `retry` attempts left. -/
inductive LoopEnd (σ : Type)
  | returned (rc : Int) (w : World σ)
  | exited (retry : Nat) (w : World σ)

/-- The word `argv[4]` of `write`, as the command tells words apart (`strcasecmp`);
for any other string only its `atoi` value matters. -/
inductive StateArg
  | wordUp
  | wordOn
  | wordDown
  | wordOff
  | number (atoi : Int)
deriving DecidableEq

/-- Lines 552-566 of `doMosfetWrite`: `none` is the `Invalid mosfet state!` return. -/
def StateArg.state : StateArg → Option OutStateEnumType
  | wordUp => some ON
  | wordOn => some ON
  | wordDown => some OFF
  | wordOff => some OFF
  | number n => if n ≥ 2 ∨ n < 0 then none else if n = 0 then some OFF else some ON

/-- The loop of lines 570-583: `while ((retry > 0) && (stateR != state))`. -/
def doMosfetWriteChLoop (B : Bus σ) (dev : Int) (pin : Nat) (state : OutStateEnumType) :
    Nat → OutStateEnumType → World σ → LoopEnd σ
  | 0, _, w => LoopEnd.exited 0 w
  | retry + 1, stateR, w =>
    if stateR ≠ state then
      let r1 := mosfetChSet B dev pin state w
      if OK ≠ r1.1 then LoopEnd.returned FAIL (printf "Fail to write mosfet\n" r1.2)
      else
        let r2 := mosfetChGet B dev pin stateR r1.2
        if OK ≠ r2.1 then LoopEnd.returned FAIL (printf "Fail to read mosfet\n" r2.2.2)
        else doMosfetWriteChLoop B dev pin state retry r2.2.1 r2.2.2
    else LoopEnd.exited (retry + 1) w

/-- The loop of lines 607-620: `while ((retry > 0) && (valR != val))`.  Its body does
not change `retry`, so the loop need not end: `fuel` bounds the number of iterations
evaluated and `none` means the bound was reached with the loop still running. -/
def doMosfetWriteValLoop (B : Bus σ) (dev : Int) (val : Int) (retry : Nat) :
    Nat → Int → World σ → Option (LoopEnd σ)
  | 0, _, _ => none
  | fuel + 1, valR, w =>
    if retry > 0 ∧ valR ≠ val then
      let r1 := mosfetSet B dev val w
      if OK ≠ r1.1 then some (LoopEnd.returned FAIL (printf "Fail to write mosfet!\n" r1.2))
      else
        let r2 := mosfetGet B dev valR r1.2
        if OK ≠ r2.1 then
          some (LoopEnd.returned FAIL (printf "Fail to read mosfet!\n" r2.2.2))
        else doMosfetWriteValLoop B dev val retry fuel r2.2.1 r2.2.2
    else some (LoopEnd.exited retry w)

def usageWrite : List String :=
  ["Usage: 8mosind <id> write <mosfet number> <on/off> \n",
   "Usage: 8mosind <id> write <mosfet reg value> \n"]

/-- `doMosfetWrite`.  `fuel` is the iteration bound of the value loop (see
`doMosfetWriteValLoop`); `none` means that loop never left. -/
def doMosfetWrite (B : Bus σ) (fuel : Nat) (argc : Nat) (stack arg3 : Int) (arg4 : StateArg)
    (w : World σ) : Option (Int × World σ) :=
  if argc ≠ 5 ∧ argc ≠ 4 then
    some (FAIL, { w with out := w.out ++ usageWrite })
  else
    let d := doBoardInit B stack w
    if d.1 ≤ 0 then some (FAIL, d.2)
    else if argc = 5 then
      if arg3 < 1 ∨ arg3 > 8 then
        some (FAIL, printf "Mosfet number value out of range\n" d.2)
      else
        match arg4.state with
        | none => some (FAIL, printf "Invalid mosfet state!\n" d.2)
        | some state =>
          match doMosfetWriteChLoop B d.1 arg3.toNat state RETRY_TIMES STATE_COUNT d.2 with
          | LoopEnd.returned rc w1 => some (rc, w1)
          | LoopEnd.exited retry w1 =>
            if retry = 0 then some (FAIL, printf "Fail to write mosfet\n" w1)
            else some (OK, w1)
    else
      if arg3 < 0 ∨ arg3 > 255 then some (FAIL, printf "Invalid mosfet value\n" d.2)
      else
        match doMosfetWriteValLoop B d.1 arg3 RETRY_TIMES fuel (-1) d.2 with
        | none => none
        | some (LoopEnd.returned rc w1) => some (rc, w1)
        | some (LoopEnd.exited retry w1) =>
          if retry = 0 then some (FAIL, printf "Fail to write mosfet!\n" w1)
          else some (OK, w1)

/-- The loop of lines 669-682: `while ((retry > 0) && (pwmR != pwm))`. -/
def doMosfetPWMWriteLoop (B : Bus σ) (dev : Int) (pin : Nat) (pwm : CFloat) :
    Nat → CFloat → World σ → LoopEnd σ
  | 0, _, w => LoopEnd.exited 0 w
  | retry + 1, pwmR, w =>
    if CFloat.ne pwmR pwm then
      let r1 := mosfetChSetPwm B dev pin pwm w
      if OK ≠ r1.1 then
        LoopEnd.returned FAIL (printf "Fail to write mosfet or not PWM capable board\n" r1.2)
      else
        let r2 := mosfetChGetPwm B dev pin pwmR r1.2
        if OK ≠ r2.1 then LoopEnd.returned FAIL (printf "Fail to read mosfet\n" r2.2.2)
        else doMosfetPWMWriteLoop B dev pin pwm retry r2.2.1 r2.2.2
    else LoopEnd.exited (retry + 1) w

/-- `doMosfetPWMWrite`; `pwm = atof(argv[4])` as a `float`. -/
def doMosfetPWMWrite (B : Bus σ) (argc : Nat) (stack arg3 : Int) (pwm : CFloat)
    (w : World σ) : Int × World σ :=
  if argc ≠ 5 then
    (FAIL, printf "Usage: 8mosind <id> pwmwr <mosfet number> <0..100> \n" w)
  else
    let d := doBoardInit B stack w
    if d.1 ≤ 0 then (FAIL, d.2)
    else if arg3 < 1 ∨ arg3 > 8 then
      (FAIL, printf "Mosfet number value out of range\n" d.2)
    else
      match doMosfetPWMWriteLoop B d.1 arg3.toNat pwm RETRY_TIMES (CFloat.ofInt 101) d.2 with
      | LoopEnd.returned rc w1 => (rc, w1)
      | LoopEnd.exited retry w1 =>
        if retry = 0 then (FAIL, printf "Fail to write mosfet\n" w1)
        else (OK, w1)

/-- `doMosfetFreqWr`; `arg3 = atoi(argv[3])` is read only when `argc == 4`.  The usage
line prints `argv[0]`, taken to be `8mosind`. -/
def doMosfetFreqWr (B : Bus σ) (I2C_PWM_FREQ : Nat) (argc : Nat) (stack arg3 : Int)
    (w : World σ) : Int × World σ :=
  let d := doBoardInit B stack w
  if d.1 ≤ 0 then (FAIL, d.2)
  else if argc = 4 then
    let r := mosfetSetFrequency B I2C_PWM_FREQ d.1 arg3 d.2
    if OK ≠ r.1 then (FAIL, printf "Fail to set the frequency!" r.2)
    else (OK, r.2)
  else (FAIL, printf "Usage: 8mosind set pwm frequency\n" d.2)

/-! ## Self test (`mosfet.c`, lines 942-1070)

`startThread`, `checkThreadResult` and `busyWait` (`thread.c`, `comm.c`) and the
constant `YES` (`thread.h`) are not part of the modelled sources: a `TestEnv` gives
`YES`, the value each call of `checkThreadResult` returns, and whether `fopen`
succeeds.  What is written to the result file is returned next to the world. -/

/-- The surroundings of `doTest`: `checkThreadResult n` is the value the call number
`n` (counted from `0`) of `checkThreadResult` returns. -/
structure TestEnv where
  YES : Int
  checkThreadResult : Nat → Int
  fopenOk : Bool

def mosfetOrder : List Nat := [1, 2, 3, 4, 5, 6, 7, 8]

/-- How a `for` loop of `doTest` ends: the function returned `FAIL` from inside it, or
the loop was left (at its end or by `break`) with this `mosfetResult`, after `calls`
calls of `checkThreadResult`. -/
inductive PassEnd (σ : Type)
  | aborted (w : World σ)
  | finished (mosfetResult : Int) (calls : Nat) (w : World σ)

/-- The loop of lines 987-999: `while ((retry > 0) && ((valR & relVal) == 0))`, with
`relVal = 1 << (ch - 1)`; `valR` is never negative.  The result is `retry`, `valR` and
the world when the loop is left; the body does not decrease `retry`, and `none` means
the bound `fuel` on the iterations was reached. -/
def doTestOnLoop (B : Bus σ) (dev : Int) (ch : Nat) :
    Nat → Nat → Int → World σ → Option (Nat × Int × World σ)
  | 0, _, _, _ => none
  | fuel + 1, retry, valR, w =>
    if retry > 0 ∧ valR.toNat &&& (1 <<< (ch - 1)) = 0 then
      let r1 := mosfetChSet B dev ch ON w
      if OK ≠ r1.1 then some (0, valR, r1.2)
      else
        let r2 := mosfetGet B dev valR r1.2
        doTestOnLoop B dev ch fuel (if OK ≠ r2.1 then 0 else retry) r2.2.1 r2.2.2
    else some (retry, valR, w)

/-- The loop of lines 1020-1030: `while ((retry > 0) && ((valR & relVal) != 0))`; a
failed `mosfetChSet` sets `retry = 0` without leaving the body. -/
def doTestOffLoop (B : Bus σ) (dev : Int) (ch : Nat) :
    Nat → Nat → Int → World σ → Option (Nat × Int × World σ)
  | 0, _, _, _ => none
  | fuel + 1, retry, valR, w =>
    if retry > 0 ∧ valR.toNat &&& (1 <<< (ch - 1)) ≠ 0 then
      let r1 := mosfetChSet B dev ch OFF w
      let retry1 := if OK ≠ r1.1 then 0 else retry
      let r2 := mosfetGet B dev valR r1.2
      doTestOffLoop B dev ch fuel (if OK ≠ r2.1 then 0 else retry1) r2.2.1 r2.2.2
    else some (retry, valR, w)

/-- The `for` loop of lines 976-1008 over the channels still to switch on. -/
def doTestOnPass (B : Bus σ) (env : TestEnv) (dev : Int) (fuel : Nat) :
    List Nat → Nat → World σ → Option (PassEnd σ)
  | [], calls, w => some (PassEnd.finished 0 calls w)
  | ch :: rest, calls, w =>
    if env.checkThreadResult calls ≠ 0 then
      some (PassEnd.finished (env.checkThreadResult calls) (calls + 1) w)
    else
      match doTestOnLoop B dev ch fuel RETRY_TIMES 0 w with
      | none => none
      | some l =>
        if l.1 = 0 then some (PassEnd.aborted (printf "Fail to write mosfet\n" l.2.2))
        else doTestOnPass B env dev fuel rest (calls + 1) l.2.2

/-- The `for` loop of lines 1010-1039 over the channels still to switch off. -/
def doTestOffPass (B : Bus σ) (env : TestEnv) (dev : Int) (fuel : Nat) :
    List Nat → Nat → World σ → Option (PassEnd σ)
  | [], calls, w => some (PassEnd.finished 0 calls w)
  | ch :: rest, calls, w =>
    if env.checkThreadResult calls ≠ 0 then
      some (PassEnd.finished (env.checkThreadResult calls) (calls + 1) w)
    else
      match doTestOffLoop B dev ch fuel RETRY_TIMES 0xff w with
      | none => none
      | some l =>
        if l.1 = 0 then some (PassEnd.aborted (printf "Fail to write mosfet!\n" l.2.2))
        else doTestOffPass B env dev fuel rest (calls + 1) l.2.2

/-- The loop of lines 974-1040: `while (mosfetResult == 0)`; `fuel0` bounds the inner
loops and the first `Nat` argument bounds the iterations of this one. -/
def doTestWhile (B : Bus σ) (env : TestEnv) (dev : Int) (fuel0 : Nat) :
    Nat → Nat → World σ → Option (PassEnd σ)
  | 0, _, _ => none
  | fuel + 1, calls, w =>
    match doTestOnPass B env dev fuel0 mosfetOrder calls w with
    | none => none
    | some (PassEnd.aborted w1) => some (PassEnd.aborted w1)
    | some (PassEnd.finished _ calls1 w1) =>
      match doTestOffPass B env dev fuel0 mosfetOrder calls1 w1 with
      | none => none
      | some (PassEnd.aborted w2) => some (PassEnd.aborted w2)
      | some (PassEnd.finished res calls2 w2) =>
        if res = 0 then doTestWhile B env dev fuel0 fuel calls2 w2
        else some (PassEnd.finished res calls2 w2)

def testPrompt : String :=
  "Are all mosfets and LEDs turning on and off in sequence?\nPress y for Yes or any key for No...."

/-- Lines 1042-1069 of `doTest`: the verdict goes to the file when there is one and to
the standard output otherwise; then `mosfetSet(dev, 0)` and `return OK`. -/
def doTestVerdict (B : Bus σ) (env : TestEnv) (dev : Int) (file : Bool) (mosfetResult : Int)
    (w : World σ) : Int × World σ × List String :=
  let line := if mosfetResult = env.YES then "Mosfet Test ............................ PASS\n"
    else "Mosfet Test ............................ FAIL!\n"
  (OK, (mosfetSet B dev 0 (if file then w else printf line w)).2, if file then [line] else [])

/-- `doTest`.  `arg2IsTest` is `strcasecmp(argv[2], "test") == 0`; the result is the
return value, the world and the lines written to the result file. -/
def doTest (B : Bus σ) (env : TestEnv) (fuel : Nat) (argc : Nat) (stack : Int)
    (arg2IsTest : Bool) (w : World σ) : Option (Int × World σ × List String) :=
  let d := doBoardInit B stack w
  if d.1 ≤ 0 then some (FAIL, d.2, [])
  else
    let file := decide (argc = 4) && env.fopenOk
    let w1 := if argc = 4 ∧ env.fopenOk = false then printf "Fail to open result file\n" d.2
      else d.2
    if arg2IsTest then
      match doTestWhile B env d.1 fuel fuel 0 (printf testPrompt w1) with
      | none => none
      | some (PassEnd.aborted w2) => some (FAIL, w2, [])
      | some (PassEnd.finished res _ w2) => some (doTestVerdict B env d.1 file res w2)
    else some (doTestVerdict B env d.1 file 0 w1)

/-! ## Bus lock (`mosfet.c`, lines 1171-1256)

The POSIX calls on the named semaphore and the clock are a parameter, as the bus
primitives are: a `SemOps ρ` gives, for a state `ρ` of the semaphore and its
surroundings, what each call returns and the next state. -/

def TIMEOUT_S : Nat := 3

/-- The value of `EINTR` in `errno.h` (Linux). -/
def EINTR : Int := 4

/-- The value of `ETIMEDOUT` in `errno.h` (Linux). -/
def ETIMEDOUT : Int := 110

/-- The calls `waitForI2C` and `releaseI2C` make.  `sem_timedwait` returns its return
value and `errno`; `sem_getvalue` returns the value it stores in `semVal`; the others
return their return value. -/
structure SemOps (ρ : Type) where
  clock_gettime : ρ → Int × ρ
  sem_timedwait : ρ → Int × Int × ρ
  sem_getvalue : ρ → Int × ρ
  sem_post : ρ → Int × ρ

/-- Line 1191: `while ((s = sem_timedwait(sem, &ts)) == -1 && errno == EINTR) continue;`.
The source does not bound the restarts: `fuel` does, and `none` means the bound was
reached. -/
def semTimedwaitRestart {ρ : Type} (S : SemOps ρ) : Nat → ρ → Option (Int × ρ)
  | 0, _ => none
  | fuel + 1, r =>
    let t := S.sem_timedwait r
    if t.1 = -1 ∧ t.2.1 = EINTR then semTimedwaitRestart S fuel t.2.2
    else some (t.1, t.2.2)

/-- The loop of lines 1182-1194: `while (semVal > 0)`.  The result is the return value
of `waitForI2C`; `fuel` bounds the iterations of this loop and of the restart loop. -/
def waitForI2CLoop {ρ : Type} (S : SemOps ρ) (fuel0 : Nat) :
    Nat → Int → ρ → World σ → Option (Int × ρ × World σ)
  | 0, _, _, _ => none
  | fuel + 1, semVal, r, w =>
    if semVal > 0 then
      let c := S.clock_gettime r
      if c.1 = -1 then some (-1, c.2, printf "Fail to read time \n" w)
      else
        match semTimedwaitRestart S fuel0 c.2 with
        | none => none
        | some t =>
          let g := S.sem_getvalue t.2
          waitForI2CLoop S fuel0 fuel g.1 g.2 w
    else some (0, r, w)

/-- `waitForI2C`: `semVal` starts at `2`. -/
def waitForI2C {ρ : Type} (S : SemOps ρ) (fuel : Nat) (r : ρ) (w : World σ) :
    Option (Int × ρ × World σ) :=
  waitForI2CLoop S fuel fuel 2 r w

/-- `releaseI2C`. -/
def releaseI2C {ρ : Type} (S : SemOps ρ) (r : ρ) (w : World σ) : Int × ρ × World σ :=
  let g := S.sem_getvalue r
  if g.1 < 1 then
    let p := S.sem_post g.2
    if p.1 = -1 then (-1, p.2, printf "Fail to post SMI2C_SEM \n" w)
    else (0, p.2, w)
  else (0, g.2, w)

/-- The text `usage` of `mosfet.c`. -/
def usage : String :=
  "Usage:\t 8mosind -h <command>\n" ++
  "         8mosind -v\n" ++
  "         8mosind -warranty\n" ++
  "         8mosind -list\n" ++
  "         8mosind <id> write <channel> <on/off>\n" ++
  "         8mosind <id> write <value>\n" ++
  "         8mosind <id> read <channel>\n" ++
  "         8mosind <id> read\n" ++
  "         8mosind <id> pwmwr <channel> <0..100>\n" ++
  "         8mosind <id> pwmrd <channel>\n" ++
  "         8mosind <id> fwr <[16..1000]>\n" ++
  "         8mosind <id> frd\n" ++
  "         8mosind <id> test\n" ++
  "         8mosind <id> cfg485wr <mode> <baudrate> <stopBits> <parity> <slaveAddr>\n" ++
  "         8mosind <id> cfg485rd\n" ++
  "Where: <id> = Board level id = 0..7\n" ++
  "Type 8mosind -h <command> for more help"

/-- `main`.  `cmd` is the function of the first entry of the command table whose name
matches `argv`, applied to `argc` and `argv` (`none` when no entry matches); a command
that does not return gives `none`.  `r` is the state of the semaphore `sem_open`
returns.  The return value of `waitForI2C` is not used. -/
def main {ρ : Type} (S : SemOps ρ) (fuel : Nat) (argc : Nat)
    (cmd : Option (World σ → Option (Int × World σ))) (r : ρ) (w : World σ) :
    Option (Int × ρ × World σ) :=
  if argc = 1 then some (1, r, printf (usage ++ "\n") w)
  else
    match waitForI2C S fuel r w with
    | none => none
    | some a =>
      match cmd with
      | some f =>
        match f a.2.2 with
        | none => none
        | some c => some (c.1, (releaseI2C S a.2.1 c.2).2.1, (releaseI2C S a.2.1 c.2).2.2)
      | none =>
        let w1 := printf (usage ++ "\n") (printf "Invalid command option\n" a.2.2)
        some (-1, (releaseI2C S a.2.1 w1).2.1, (releaseI2C S a.2.1 w1).2.2)

/-! ## A simulated bus -/

/-- A simulated bus.  `ack` says which addresses answer; the handle `i2cSetup` returns
for an address is the address itself.  `regs` holds the register file of every device.
Every transaction with an answering device reports success; the write transaction
number `n` (counted from `0`) changes the registers only when `latch n` holds. -/
structure SimBus where
  ack : Int → Bool
  regs : Int → Nat → Nat
  latch : Nat → Bool
  nwr : Nat

/-- Register file after storing `bytes` at `reg` of device `dev`. -/
def storeRegs (regs : Int → Nat → Nat) (dev : Int) (reg : Nat) (bytes : List Nat) :
    Int → Nat → Nat :=
  fun d r => if d = dev ∧ reg ≤ r ∧ r < reg + bytes.length then bytes.getD (r - reg) 0
    else regs d r

def simBus : Bus SimBus where
  i2cSetup := fun m add => (add, m)
  i2cMem8Read := fun m dev reg size =>
    if m.ack dev then (OK, (List.range size).map (fun i => m.regs dev (reg + i)), m)
    else (ERROR, [], m)
  i2cMem8Write := fun m dev reg bytes =>
    if m.ack dev then
      (OK, { m with
              regs := if m.latch m.nwr then storeRegs m.regs dev reg bytes else m.regs,
              nwr := m.nwr + 1 })
    else (ERROR, m)

/-- A bus "that stores what is written": every write is latched. -/
def Stores (m : SimBus) : Prop := ∀ n, m.latch n = true

/-- Number of write transactions to the output register in a log. -/
def outportWrites (log : List Txn) : Nat :=
  (log.filter (fun t => match t with
    | Txn.write _ reg _ => decide (reg = MOSFET8_OUTPORT_REG_ADD)
    | _ => false)).length

/-! ## Simulated worlds and observations used in the statements -/

/-- A board answering at every address, every output register holding `0xA5`, every
write latched; nothing logged or printed yet. -/
def storingWorld : World SimBus :=
  { bus := { ack := fun _ => true, regs := fun _ _ => 0xA5, latch := fun _ => true, nwr := 0 },
    log := [], out := [] }

/-- A bus of read-only devices: every address answers, a read returns the registers,
and every write transaction reports an error and stores nothing. -/
def readOnlyBus : Bus SimBus where
  i2cSetup := fun m add => (add, m)
  i2cMem8Read := fun m dev reg size =>
    (OK, (List.range size).map (fun i => m.regs dev (reg + i)), m)
  i2cMem8Write := fun m _ _ _ => (ERROR, m)

/-- Probe transactions: opening an address and reading a register. -/
def isProbe : Txn → Bool
  | Txn.setup _ => true
  | Txn.read _ _ _ => true
  | Txn.write _ _ _ => false

/-- The primary address of stack level `stack`. -/
def primaryAdd (stack : Int) : Int := xorInt (stack + MOSFET8_HW_I2C_BASE_ADD) 0x07

/-- The alternate address of stack level `stack`. -/
def alternateAdd (stack : Int) : Int :=
  xorInt (stack + MOSFET8_HW_I2C_ALTERNATE_BASE_ADD) 0x07

/-- What the bus answers to a probe of address `add` from bus state `b`: the handle,
the return code of the read of the configuration register, the bytes read, and the
next bus state. -/
def probeAnswer (B : Bus σ) (add : Int) (b : σ) : Int × Int × List Nat × σ :=
  let s := B.i2cSetup b add
  let r := B.i2cMem8Read s.2 s.1 MOSFET8_CFG_REG_ADD 1
  (s.1, r.1, r.2.1, r.2.2)

/-- The bus's answer to the probe of the primary address of `stack`. -/
def primaryProbe (B : Bus σ) (stack : Int) (w : World σ) : Int × Int × List Nat × σ :=
  probeAnswer B (primaryAdd stack) w.bus

/-- The bus's answer to the probe of the alternate address of `stack`, made after the
probe of the primary address. -/
def alternateProbe (B : Bus σ) (stack : Int) (w : World σ) : Int × Int × List Nat × σ :=
  probeAnswer B (alternateAdd stack) (primaryProbe B stack w).2.2.2

/-- Whether the initialization of lines 479-493 ends in `return ERROR`: the
configuration byte is non-zero and one of the two writes reports a negative code. -/
def initWriteFails (B : Bus σ) (dev : Int) (cfg : Nat) (b : σ) : Bool :=
  decide (cfg ≠ 0 ∧
    (0 > (B.i2cMem8Write b dev MOSFET8_CFG_REG_ADD [0]).1 ∨
     0 > (B.i2cMem8Write (B.i2cMem8Write b dev MOSFET8_CFG_REG_ADD [0]).2 dev
            MOSFET8_OUTPORT_REG_ADD [0xff]).1))

/-- A bus on which only address `0x24`, the alternate address of stack level 3,
answers; its registers read zero and every write is latched. -/
def alternateOnlyWorld : World SimBus :=
  { bus := { ack := fun d => decide (d = 0x24), regs := fun _ _ => 0,
             latch := fun _ => true, nwr := 0 },
    log := [], out := [] }

/-- The state the output-register byte `b` shows for channel `c` (lines 286-293). -/
def chState (b : Nat) (c : Nat) : OutStateEnumType :=
  if u8 b &&& (1 <<< (c - 1)) ≠ 0 then OFF else ON

/-- An initialized board (configuration register `0`, every output OFF: output register
`0xff`) behind a bus that reports every transaction as successful, drops the first nine
writes and latches from the tenth on. -/
def latchTenthWorld : World SimBus :=
  { bus := { ack := fun _ => true, regs := fun _ r => if r = 3 then 0 else 0xff,
             latch := fun n => decide (9 ≤ n), nwr := 0 },
    log := [], out := [] }

/-- An initialized board (configuration register `0`, output register `0xff`) behind a
bus that reports every transaction as successful and never latches a write. -/
def stuckWorld : World SimBus :=
  { bus := { ack := fun _ => true, regs := fun _ r => if r = 3 then 0 else 0xff,
             latch := fun _ => false, nwr := 0 },
    log := [], out := [] }

/-- The value of `value` after the two clamping statements of `mosfetChSetPwm`. -/
def clampDuty (d : CFloat) : CFloat :=
  if CFloat.lt (CFloat.ofInt 100) d then CFloat.ofInt 100
  else if CFloat.lt d (CFloat.ofInt 0) then CFloat.ofInt 0 else d

/-- The raw duty as the specification words it: `round(clamp(d, 0, 100) × 10)`. -/
def specPwmRaw (d : ℚ) : Int := round (max 0 (min 100 d) * 10)

/-- Number of write transactions to register `reg` in a log. -/
def writesTo (reg : Nat) (log : List Txn) : Nat :=
  (log.filter (fun t => match t with
    | Txn.write _ r _ => decide (r = reg)
    | _ => false)).length

/-- The duty `mosfetChGetPwm` reads for channel `c` from the register file `regs` of
device `dev` (lines 314-320). -/
def pwmReadBack (regs : Int → Nat → Nat) (dev : Int) (c : Nat) : CFloat :=
  CFloat.divNat (CFloat.ofInt
    ((u8 (regs dev (I2C_MEM_PWM1 + 2 * (c - 1))) +
      256 * u8 (regs dev (I2C_MEM_PWM1 + 2 * (c - 1) + 1)) : Nat) : Int)) 10

/-- Write transactions. -/
def isWrite : Txn → Bool
  | Txn.write _ _ _ => true
  | _ => false

/-- The probe that located the board: the primary one when its read succeeded, the
alternate one otherwise. -/
def locatedProbe (B : Bus σ) (stack : Int) (w : World σ) : Int × Int × List Nat × σ :=
  if (primaryProbe B stack w).2.1 ≠ ERROR then primaryProbe B stack w
  else alternateProbe B stack w

/-! ## A simulated semaphore and two interleaved processes -/

/-- A semaphore no other process touches: its count, and the number of times a
`sem_timedwait` has decremented it. -/
structure SimSem where
  count : Nat
  decs : Nat
deriving DecidableEq

/-- The calls on a semaphore no other process touches.  `sem_timedwait` decrements a
positive count and returns `0`; at count `0` the count stays `0` for the whole timeout
and the call returns `-1` with `errno = ETIMEDOUT`. -/
def aloneSem : SemOps SimSem where
  clock_gettime := fun r => (0, r)
  sem_timedwait := fun r =>
    if r.count > 0 then (0, 0, { count := r.count - 1, decs := r.decs + 1 })
    else (-1, ETIMEDOUT, r)
  sem_getvalue := fun r => ((r.count : Int), r)
  sem_post := fun r => (0, { r with count := r.count + 1 })

/-- Where a process stands in `main`: at the head of the loop of `waitForI2C`; after
`sem_timedwait`, before `sem_getvalue`; in its command (after `waitForI2C` returned,
before `releaseI2C` is called); in `releaseI2C` before `sem_getvalue`; in `releaseI2C`
before the test `semVal < 1`; after `releaseI2C`. -/
inductive Pc
  | waiting
  | polled
  | critical
  | releasing
  | posting
  | done
deriving DecidableEq

/-- A process: where it stands, and its local `semVal`. -/
structure Proc where
  pc : Pc
  semVal : Int
deriving DecidableEq

/-- The shared semaphore count and two processes. -/
structure Sys where
  count : Nat
  p0 : Proc
  p1 : Proc
deriving DecidableEq

/-- One atomic step of a process on the shared count; `none` when the process cannot
take that step.  With `timeout = false` the step is the next call or test of the code,
a `sem_timedwait` succeeding only on a positive count; with `timeout = true` it is a
`sem_timedwait` on a zero count that returns on its timeout. -/
def procStep (timeout : Bool) (count : Nat) (p : Proc) : Option (Nat × Proc) :=
  match p.pc with
  | Pc.waiting =>
    if p.semVal > 0 then
      if count > 0 then
        if timeout then none else some (count - 1, { p with pc := Pc.polled })
      else
        if timeout then some (count, { p with pc := Pc.polled }) else none
    else
      if timeout then none else some (count, { p with pc := Pc.critical })
  | Pc.polled =>
    if timeout then none else some (count, { pc := Pc.waiting, semVal := count })
  | Pc.critical =>
    if timeout then none else some (count, { p with pc := Pc.releasing })
  | Pc.releasing =>
    if timeout then none else some (count, { pc := Pc.posting, semVal := count })
  | Pc.posting =>
    if timeout then none
    else some (if p.semVal < 1 then count + 1 else count, { p with pc := Pc.done })
  | Pc.done => none

/-- A scheduling decision: which process moves, and whether by a timeout. -/
structure Act where
  second : Bool
  timeout : Bool
deriving DecidableEq

def sysStep (a : Act) (s : Sys) : Option Sys :=
  if a.second then
    (procStep a.timeout s.count s.p1).map (fun r => { s with count := r.1, p1 := r.2 })
  else
    (procStep a.timeout s.count s.p0).map (fun r => { s with count := r.1, p0 := r.2 })

/-- The state an interleaving leads to; `none` when one of its steps cannot be taken. -/
def runSchedule : List Act → Sys → Option Sys
  | [], s => some s
  | a :: rest, s =>
    match sysStep a s with
    | none => none
    | some s1 => runSchedule rest s1

/-- Two processes entering `waitForI2C` on the semaphore `sem_open` created with
count 3. -/
def initSys : Sys :=
  { count := 3, p0 := { pc := Pc.waiting, semVal := 2 }, p1 := { pc := Pc.waiting, semVal := 2 } }

/-- The next code step of the first process. -/
def stepFirst : Act := { second := false, timeout := false }

/-- The next code step of the second process. -/
def stepSecond : Act := { second := true, timeout := false }

/-- As `simBus`, except that the write transaction number `k` reports an error and
stores nothing. -/
def failAtBus (k : Nat) : Bus SimBus where
  i2cSetup := simBus.i2cSetup
  i2cMem8Read := simBus.i2cMem8Read
  i2cMem8Write := fun m dev reg bytes =>
    if m.nwr = k then (ERROR, { m with nwr := m.nwr + 1 })
    else simBus.i2cMem8Write m dev reg bytes

/-- An initialized board (configuration register `0`, every output OFF: output register
`0xff`) behind a bus that latches every write. -/
def initializedWorld : World SimBus :=
  { bus := { ack := fun _ => true, regs := fun _ r => if r = 3 then 0 else 0xff,
             latch := fun _ => true, nwr := 0 },
    log := [], out := [] }

/-- Nobody presses a key during the self test, and no result file is opened. -/
def noKeyEnv : TestEnv :=
  { YES := 1, checkThreadResult := fun _ => 0, fopenOk := false }

/-- The key for "yes" is pressed before the first channel is switched. -/
def yesKeyEnv : TestEnv :=
  { YES := 1, checkThreadResult := fun _ => 1, fopenOk := false }

/-- The key for "yes" is pressed once channels 1 to 3 are on: the first three calls of
`checkThreadResult` return `0`, the later ones `YES`. -/
def yesAfterThreeEnv : TestEnv :=
  { YES := 1, checkThreadResult := fun n => if n < 3 then 0 else 1, fopenOk := false }

/-! ## Bit-level facts about the codec -/

set_option maxRecDepth 100000 in
theorem IOToMosfet_mosfetToIO_fin : ∀ v : Fin 256, IOToMosfet ( mosfetToIO v.val) = v.val := by
  decide

set_option maxRecDepth 100000 in
theorem clearBit_fin : ∀ b : Fin 256, ∀ n i : Fin 8,
    (u8 (b.val &&& (0xff ^^^ (1 <<< n.val)))).testBit i.val =
      (if i = n then false else b.val.testBit i.val) := by
  decide

set_option maxRecDepth 100000 in
theorem setBit_fin : ∀ b : Fin 256, ∀ n i : Fin 8,
    (u8 (b.val ||| (1 <<< n.val))).testBit i.val =
      (if i = n then true else b.val.testBit i.val) := by
  decide

set_option maxRecDepth 100000 in
theorem clearBit_test_fin : ∀ b : Fin 256, ∀ n : Fin 8,
    u8 (u8 (b.val &&& (0xff ^^^ (1 <<< n.val)))) &&& (1 <<< n.val) = 0 := by
  decide

set_option maxRecDepth 100000 in
theorem setBit_test_fin : ∀ b : Fin 256, ∀ n : Fin 8,
    u8 (u8 (b.val ||| (1 <<< n.val))) &&& (1 <<< n.val) ≠ 0 := by
  decide

theorem mosfetChRemap_getD : ∀ n : Fin 8, mosfetChRemap.getD n.val 0 = n.val := by
  decide

theorem u8_lt (n : Nat) : u8 n < 256 := Nat.mod_lt _ (by decide)

theorem mosfetChRemap_pred (c : Nat) (h1 : 1 ≤ c) (h8 : c ≤ 8) :
    mosfetChRemap.getD (c - 1) 0 = c - 1 :=
  mosfetChRemap_getD ⟨c - 1, by omega⟩

/-! ## Single-channel and bulk state round trips -/

theorem simBus_read_ack (m : SimBus) (dev : Int) (reg size : Nat) (h : m.ack dev = true) :
    simBus.i2cMem8Read m dev reg size =
      (OK, (List.range size).map (fun i => m.regs dev (reg + i)), m) := by
  simp [simBus, h]

theorem simBus_write_ack (m : SimBus) (dev : Int) (reg : Nat) (bytes : List Nat)
    (h : m.ack dev = true) :
    simBus.i2cMem8Write m dev reg bytes =
      (OK, { m with
              regs := if m.latch m.nwr then storeRegs m.regs dev reg bytes else m.regs,
              nwr := m.nwr + 1 }) := by
  simp [simBus, h]

theorem OK_ne_FAIL : FAIL ≠ OK := by decide

/-- C1: on a simulated bus that stores what is written, for every channel `c` in 1..8,
every state `s` in {ON, OFF} and every initial register content, `mosfetChSet dev c s`
succeeds and a following `mosfetChGet dev c` returns `OK` with state `s`. -/
theorem mosfetChSet_mosfetChGet_roundtrip (w : World SimBus) (dev : Int) (c : Nat)
    (s stateIn : OutStateEnumType) (hack : w.bus.ack dev = true) (hst : Stores w.bus)
    (h1 : 1 ≤ c) (h8 : c ≤ 8) (hs : s = ON ∨ s = OFF) :
    (mosfetChSet simBus dev c s w).1 = OK ∧
    (mosfetChGet simBus dev c stateIn (mosfetChSet simBus dev c s w).2).1 = OK ∧
    (mosfetChGet simBus dev c stateIn (mosfetChSet simBus dev c s w).2).2.1 = s := by
  have hr : mosfetChRemap[c - 1]?.getD 0 = c - 1 := by
    simpa using mosfetChRemap_pred c h1 h8
  have hnot : ¬ (c < CHANNEL_NR_MIN ∨ c > MOSFET_CH_NR_MAX) := by
    simp only [CHANNEL_NR_MIN, MOSFET_CH_NR_MAX]; omega
  have hl := hst w.bus.nwr
  rcases hs with rfl | rfl
  · have hb := clearBit_test_fin ⟨buffAt [w.bus.regs dev 1] 0, u8_lt _⟩ ⟨c - 1, by omega⟩
    simp only [buffAt, List.getD_cons_zero] at hb
    simp [mosfetChSet, mosfetChGet, hnot, i2cMem8Read, i2cMem8Write, simBus_read_ack,
      simBus_write_ack, hack, hl, OK_ne_FAIL, hr, MOSFET8_OUTPORT_REG_ADD, storeRegs,
      buffAt, hb]
  · have hb := setBit_test_fin ⟨buffAt [w.bus.regs dev 1] 0, u8_lt _⟩ ⟨c - 1, by omega⟩
    simp only [buffAt, List.getD_cons_zero] at hb
    simp [mosfetChSet, mosfetChGet, hnot, i2cMem8Read, i2cMem8Write, simBus_read_ack,
      simBus_write_ack, hack, hl, OK_ne_FAIL, hr, MOSFET8_OUTPORT_REG_ADD, storeRegs,
      buffAt, hb]

theorem mosfetChSet_mosfetChGet_roundtrip_witness :
    (mosfetChSet simBus 0x3f 5 ON storingWorld).1 = OK ∧
    (mosfetChGet simBus 0x3f 5 STATE_COUNT (mosfetChSet simBus 0x3f 5 ON storingWorld).2).1 = OK ∧
    (mosfetChGet simBus 0x3f 5 STATE_COUNT (mosfetChSet simBus 0x3f 5 ON storingWorld).2).2.1
      = ON :=
  mosfetChSet_mosfetChGet_roundtrip storingWorld 0x3f 5 ON STATE_COUNT rfl (fun _ => rfl)
    (by decide) (by decide) (Or.inl rfl)

/-- C2: for every bus, every channel `c` in 1..8 and state `s` in {ON, OFF}, when the
read of the output register succeeds with byte `b`, `mosfetChSet dev c s` issues, after
that read, exactly one write: of one byte `b2` to the output register, where `b2` agrees
with `b` on every bit other than bit `c-1`, and bit `c-1` of `b2` is clear for ON and
set for OFF. -/
theorem mosfetChSet_frame (B : Bus σ) (w : World σ) (dev : Int) (c : Nat)
    (s : OutStateEnumType) (h1 : 1 ≤ c) (h8 : c ≤ 8) (hs : s = ON ∨ s = OFF)
    (hrd : (B.i2cMem8Read w.bus dev MOSFET8_OUTPORT_REG_ADD 1).1 ≠ FAIL) :
    ∃ b2 : Nat,
      (mosfetChSet B dev c s w).2.log =
        w.log ++ [Txn.read dev MOSFET8_OUTPORT_REG_ADD 1,
                  Txn.write dev MOSFET8_OUTPORT_REG_ADD [b2]] ∧
      b2 < 256 ∧
      (∀ i, i < 8 → i ≠ c - 1 →
        b2.testBit i =
          (buffAt (B.i2cMem8Read w.bus dev MOSFET8_OUTPORT_REG_ADD 1).2.1 0).testBit i) ∧
      b2.testBit (c - 1) = decide (s = OFF) := by
  have hr := mosfetChRemap_pred c h1 h8
  have hnot : ¬ (c < CHANNEL_NR_MIN ∨ c > MOSFET_CH_NR_MAX) := by
    simp only [CHANNEL_NR_MIN, MOSFET_CH_NR_MAX]; omega
  have hrd2 : ¬ FAIL = (B.i2cMem8Read w.bus dev MOSFET8_OUTPORT_REG_ADD 1).1 :=
    fun h => hrd h.symm
  set b := buffAt (B.i2cMem8Read w.bus dev MOSFET8_OUTPORT_REG_ADD 1).2.1 0 with hbdef
  have hblt : b < 256 := u8_lt _
  rcases hs with rfl | rfl
  · refine ⟨u8 (b &&& (0xff ^^^ (1 <<< (c - 1)))), ?_, u8_lt _, ?_, ?_⟩
    · simp only [mosfetChSet, hnot, if_false, i2cMem8Read, hrd2, i2cMem8Write, hr, ← hbdef,
        List.append_assoc, List.singleton_append]
    · intro i hi hne
      have := clearBit_fin ⟨b, hblt⟩ ⟨c - 1, by omega⟩ ⟨i, hi⟩
      simpa [Fin.ext_iff, hne] using this
    · have := clearBit_fin ⟨b, hblt⟩ ⟨c - 1, by omega⟩ ⟨c - 1, by omega⟩
      simpa using this
  · refine ⟨u8 (b ||| (1 <<< (c - 1))), ?_, u8_lt _, ?_, ?_⟩
    · simp only [mosfetChSet, hnot, if_false, i2cMem8Read, hrd2, i2cMem8Write, hr, ← hbdef,
        List.append_assoc, List.singleton_append]
    · intro i hi hne
      have := setBit_fin ⟨b, hblt⟩ ⟨c - 1, by omega⟩ ⟨i, hi⟩
      simpa [Fin.ext_iff, hne] using this
    · have := setBit_fin ⟨b, hblt⟩ ⟨c - 1, by omega⟩ ⟨c - 1, by omega⟩
      simpa using this

theorem mosfetChSet_frame_witness :
    ∃ b2 : Nat,
      (mosfetChSet simBus 0x3f 3 ON storingWorld).2.log =
        storingWorld.log ++ [Txn.read 0x3f MOSFET8_OUTPORT_REG_ADD 1,
                  Txn.write 0x3f MOSFET8_OUTPORT_REG_ADD [b2]] ∧
      b2 < 256 ∧
      (∀ i, i < 8 → i ≠ 3 - 1 →
        b2.testBit i =
          (buffAt (simBus.i2cMem8Read storingWorld.bus 0x3f
            MOSFET8_OUTPORT_REG_ADD 1).2.1 0).testBit i) ∧
      b2.testBit (3 - 1) = decide (ON = OFF) :=
  mosfetChSet_frame simBus storingWorld 0x3f 3 ON (by decide) (by decide) (Or.inl rfl)
    (by decide)

/-- C3: for every byte value `v` in 0..255, `IOToMosfet ( mosfetToIO v) = v`, and on a
simulated bus that stores what is written the bulk write `mosfetSet dev v` succeeds and
a following bulk read `mosfetGet dev` returns `OK` with value `v`. -/
theorem mosfetSet_mosfetGet_roundtrip (w : World SimBus) (dev : Int) (v : Nat) (valIn : Int)
    (hack : w.bus.ack dev = true) (hst : Stores w.bus) (hv : v ≤ 255) :
    IOToMosfet ( mosfetToIO v) = v ∧
    (mosfetSet simBus dev v w).1 = OK ∧
    (mosfetGet simBus dev valIn (mosfetSet simBus dev v w).2).1 = OK ∧
    (mosfetGet simBus dev valIn (mosfetSet simBus dev v w).2).2.1 = v := by
  have hrt := IOToMosfet_mosfetToIO_fin ⟨v, by omega⟩
  simp only [] at hrt
  have hl := hst w.bus.nwr
  have hmod : ((v : Int) % 256).toNat = v := by omega
  have hu : u8 ( mosfetToIO v) = mosfetToIO v := by
    have : mosfetToIO v < 256 := u8_lt _
    exact Nat.mod_eq_of_lt this
  refine ⟨hrt, ?_⟩
  simp [mosfetSet, mosfetGet, i2cMem8Read, i2cMem8Write, simBus_read_ack, simBus_write_ack,
    hack, hl, OK_ne_FAIL, MOSFET8_OUTPORT_REG_ADD, storeRegs, buffAt, hmod, hu, hrt]

theorem mosfetSet_mosfetGet_roundtrip_witness :
    IOToMosfet ( mosfetToIO 0x81) = 0x81 ∧
    (mosfetSet simBus 0x3f (0x81 : Nat) storingWorld).1 = OK ∧
    (mosfetGet simBus 0x3f (-1) (mosfetSet simBus 0x3f (0x81 : Nat) storingWorld).2).1 = OK ∧
    (mosfetGet simBus 0x3f (-1) (mosfetSet simBus 0x3f (0x81 : Nat) storingWorld).2).2.1
      = (0x81 : Nat) :=
  mosfetSet_mosfetGet_roundtrip storingWorld 0x3f 0x81 (-1) rfl (fun _ => rfl) (by decide)

/-- C8: for every integer `f`, when `f < 16` or `f > 1000` `mosfetSetFrequency dev f`
returns `ERROR` and leaves the bus and the transaction log untouched (nothing written,
nothing clamped); when `16 ≤ f ≤ 1000` its only transaction is the write of the two
bytes `f mod 256`, `f div 256` (little-endian) to the frequency register, and on a
simulated bus that stores what is written a following `mosfetGetFrequency` returns
`OK` with exactly `f`. -/
theorem mosfetSetFrequency_spec (freqReg : Nat) (w : World SimBus) (dev : Int) (f valIn : Int)
    (hack : w.bus.ack dev = true) (hst : Stores w.bus) :
    if f < 16 ∨ f > 1000 then
      (mosfetSetFrequency simBus freqReg dev f w).1 = ERROR ∧
      (mosfetSetFrequency simBus freqReg dev f w).2.log = w.log ∧
      (mosfetSetFrequency simBus freqReg dev f w).2.bus = w.bus
    else
      (mosfetSetFrequency simBus freqReg dev f w).1 = OK ∧
      (mosfetSetFrequency simBus freqReg dev f w).2.log =
        w.log ++ [Txn.write dev freqReg [f.toNat % 256, f.toNat / 256]] ∧
      (mosfetGetFrequency simBus freqReg dev valIn
        (mosfetSetFrequency simBus freqReg dev f w).2).1 = OK ∧
      (mosfetGetFrequency simBus freqReg dev valIn
        (mosfetSetFrequency simBus freqReg dev f w).2).2.1 = f := by
  have hl := hst w.bus.nwr
  split
  · next h =>
    have h2 : f < MOS_MIN_FREQ ∨ f > MOS_MAX_FREQ := h
    simp [mosfetSetFrequency, h2, printf]
  · next h =>
    have h2 : ¬ (f < MOS_MIN_FREQ ∨ f > MOS_MAX_FREQ) := h
    have hraw : (f % 65536).toNat = f.toNat := by omega
    have hlt : f.toNat < 65536 := by omega
    have h0 : u8 (f.toNat % 256) = f.toNat % 256 := Nat.mod_eq_of_lt (Nat.mod_lt _ (by decide))
    have h1 : u8 (f.toNat / 256) = f.toNat / 256 := Nat.mod_eq_of_lt (by omega)
    simp [mosfetSetFrequency, mosfetGetFrequency, h2, i2cMem8Read, i2cMem8Write,
      simBus_read_ack, simBus_write_ack, hack, hl, OK_ne_FAIL, storeRegs, buffAt, hraw,
      List.range_succ, h0, h1]
    rw [max_eq_left (by omega : (0 : Int) ≤ f)]
    omega

theorem mosfetSetFrequency_spec_witness :
    if (1000 : Int) < 16 ∨ (1000 : Int) > 1000 then
      (mosfetSetFrequency simBus 0x28 0x3f 1000 storingWorld).1 = ERROR ∧
      (mosfetSetFrequency simBus 0x28 0x3f 1000 storingWorld).2.log = storingWorld.log ∧
      (mosfetSetFrequency simBus 0x28 0x3f 1000 storingWorld).2.bus = storingWorld.bus
    else
      (mosfetSetFrequency simBus 0x28 0x3f 1000 storingWorld).1 = OK ∧
      (mosfetSetFrequency simBus 0x28 0x3f 1000 storingWorld).2.log =
        storingWorld.log ++
          [Txn.write 0x3f 0x28 [(1000 : Int).toNat % 256, (1000 : Int).toNat / 256]] ∧
      (mosfetGetFrequency simBus 0x28 0x3f 0
        (mosfetSetFrequency simBus 0x28 0x3f 1000 storingWorld).2).1 = OK ∧
      (mosfetGetFrequency simBus 0x28 0x3f 0
        (mosfetSetFrequency simBus 0x28 0x3f 1000 storingWorld).2).2.1 = 1000 :=
  mosfetSetFrequency_spec 0x28 storingWorld 0x3f 1000 0 rfl (fun _ => rfl)

theorem doBoardInitExpander_fst (B : Bus σ) (dev : Int) (cfg : Nat) (w : World σ) :
    (doBoardInitExpander B dev cfg w).1 =
      if initWriteFails B dev cfg w.bus then ERROR else dev := by
  unfold doBoardInitExpander initWriteFails
  by_cases hc : cfg ≠ 0
  · by_cases h1 : 0 > (B.i2cMem8Write w.bus dev MOSFET8_CFG_REG_ADD [0]).1
    · simp [hc, i2cMem8Write, h1]
    · by_cases h2 : 0 > (B.i2cMem8Write (B.i2cMem8Write w.bus dev MOSFET8_CFG_REG_ADD [0]).2
          dev MOSFET8_OUTPORT_REG_ADD [0xff]).1
      · simp [hc, i2cMem8Write, h1, h2]
      · simp [hc, i2cMem8Write, h1, h2]
  · simp [hc]

theorem doBoardInitExpander_probes (B : Bus σ) (dev : Int) (cfg : Nat) (w : World σ) :
    (doBoardInitExpander B dev cfg w).2.log.filter isProbe = w.log.filter isProbe := by
  unfold doBoardInitExpander
  by_cases hc : cfg ≠ 0
  · by_cases h1 : 0 > (B.i2cMem8Write w.bus dev MOSFET8_CFG_REG_ADD [0]).1
    · simp [hc, i2cMem8Write, h1, isProbe]
    · by_cases h2 : 0 > (B.i2cMem8Write (B.i2cMem8Write w.bus dev MOSFET8_CFG_REG_ADD [0]).2
          dev MOSFET8_OUTPORT_REG_ADD [0xff]).1
      · simp [hc, i2cMem8Write, h1, h2, isProbe]
      · simp [hc, i2cMem8Write, h1, h2, isProbe]
  · simp [hc]

/-- C10, as stated, fails: on a bus of read-only devices whose configuration register
holds a non-zero byte, the primary probe of stack level 0 (address `0x3f`) succeeds, yet
`doBoardInit` returns `ERROR`, not the handle `0x3f`. -/
theorem doBoardInit_handle_counterexample :
    (probeAnswer readOnlyBus (primaryAdd 0) storingWorld.bus).1 = 0x3f ∧
    (probeAnswer readOnlyBus (primaryAdd 0) storingWorld.bus).2.1 = OK ∧
    (doBoardInit readOnlyBus 0 storingWorld).1 = ERROR := by
  decide

/-- C10 (amended): for a stack level outside 0..7 `doBoardInit` returns `ERROR` and
issues no transaction.  For a level in 0..7, with device handles that open, it first
opens `(stack + 0x38) ^ 0x07` and reads the configuration register; only if that read
returns `ERROR` does it open `(stack + 0x20) ^ 0x07` and read the configuration register
there; these are all its probes.  It returns `ERROR` when both reads fail; otherwise it
returns the handle of the first address whose read succeeded, except that it returns
`ERROR` when the byte read is non-zero and an initialization write reports an error. -/
theorem doBoardInit_probe_order (B : Bus σ) (stack : Int) (w : World σ)
    (hopen1 : (primaryProbe B stack w).1 ≠ -1) (hopen2 : (alternateProbe B stack w).1 ≠ -1) :
    if stack < 0 ∨ stack > 7 then
      (doBoardInit B stack w).1 = ERROR ∧ (doBoardInit B stack w).2.log = w.log ∧
      (doBoardInit B stack w).2.bus = w.bus
    else if (primaryProbe B stack w).2.1 ≠ ERROR then
      (doBoardInit B stack w).2.log.filter isProbe =
        w.log.filter isProbe ++
          [Txn.setup (primaryAdd stack),
           Txn.read (primaryProbe B stack w).1 MOSFET8_CFG_REG_ADD 1] ∧
      (doBoardInit B stack w).1 =
        if initWriteFails B (primaryProbe B stack w).1
            (buffAt (primaryProbe B stack w).2.2.1 0) (primaryProbe B stack w).2.2.2
        then ERROR else (primaryProbe B stack w).1
    else
      (doBoardInit B stack w).2.log.filter isProbe =
        w.log.filter isProbe ++
          [Txn.setup (primaryAdd stack),
           Txn.read (primaryProbe B stack w).1 MOSFET8_CFG_REG_ADD 1,
           Txn.setup (alternateAdd stack),
           Txn.read (alternateProbe B stack w).1 MOSFET8_CFG_REG_ADD 1] ∧
      (doBoardInit B stack w).1 =
        if (alternateProbe B stack w).2.1 = ERROR then ERROR
        else if initWriteFails B (alternateProbe B stack w).1
            (buffAt (alternateProbe B stack w).2.2.1 0) (alternateProbe B stack w).2.2.2
        then ERROR
        else (alternateProbe B stack w).1 := by
  simp only [primaryProbe, alternateProbe] at hopen1 hopen2 ⊢
  simp only [probeAnswer, primaryAdd, alternateAdd] at hopen1 hopen2 ⊢
  by_cases hs : stack < 0 ∨ stack > 7
  · simp [doBoardInit, hs, printf]
  · rw [if_neg hs]
    by_cases hp : (B.i2cMem8Read
        (B.i2cSetup w.bus (xorInt (stack + MOSFET8_HW_I2C_BASE_ADD) 0x07)).2
        (B.i2cSetup w.bus (xorInt (stack + MOSFET8_HW_I2C_BASE_ADD) 0x07)).1
        MOSFET8_CFG_REG_ADD 1).1 ≠ ERROR
    · rw [if_pos hp]
      have hp2 : ¬ ERROR = (B.i2cMem8Read
        (B.i2cSetup w.bus (xorInt (stack + MOSFET8_HW_I2C_BASE_ADD) 0x07)).2
        (B.i2cSetup w.bus (xorInt (stack + MOSFET8_HW_I2C_BASE_ADD) 0x07)).1
        MOSFET8_CFG_REG_ADD 1).1 := fun h => hp h.symm
      simp only [doBoardInit, hs, if_false, i2cSetup, hopen1, i2cMem8Read, hp2,
        doBoardInitExpander_fst, doBoardInitExpander_probes]
      simp [isProbe]
    · rw [if_neg hp]
      have hp2 : ERROR = (B.i2cMem8Read
        (B.i2cSetup w.bus (xorInt (stack + MOSFET8_HW_I2C_BASE_ADD) 0x07)).2
        (B.i2cSetup w.bus (xorInt (stack + MOSFET8_HW_I2C_BASE_ADD) 0x07)).1
        MOSFET8_CFG_REG_ADD 1).1 := by
        have := not_not.mp hp
        exact this.symm
      by_cases hq : ERROR = (B.i2cMem8Read
          (B.i2cSetup (B.i2cMem8Read
            (B.i2cSetup w.bus (xorInt (stack + MOSFET8_HW_I2C_BASE_ADD) 0x07)).2
            (B.i2cSetup w.bus (xorInt (stack + MOSFET8_HW_I2C_BASE_ADD) 0x07)).1
            MOSFET8_CFG_REG_ADD 1).2.2
            (xorInt (stack + MOSFET8_HW_I2C_ALTERNATE_BASE_ADD) 0x07)).2
          (B.i2cSetup (B.i2cMem8Read
            (B.i2cSetup w.bus (xorInt (stack + MOSFET8_HW_I2C_BASE_ADD) 0x07)).2
            (B.i2cSetup w.bus (xorInt (stack + MOSFET8_HW_I2C_BASE_ADD) 0x07)).1
            MOSFET8_CFG_REG_ADD 1).2.2
            (xorInt (stack + MOSFET8_HW_I2C_ALTERNATE_BASE_ADD) 0x07)).1
          MOSFET8_CFG_REG_ADD 1).1
      · simp only [doBoardInit, hs, if_false, i2cSetup, hopen1, i2cMem8Read, ← hp2, if_true,
          hopen2, ← hq, printf]
        simp [isProbe]
      · have hq2 := fun h => hq (Eq.symm h)
        simp only [doBoardInit, hs, if_false, i2cSetup, hopen1, i2cMem8Read, ← hp2, if_true,
          hopen2, hq, doBoardInitExpander_fst, doBoardInitExpander_probes]
        rw [if_neg hq2]
        simp [isProbe]

theorem doBoardInit_probe_order_witness :
    if (3 : Int) < 0 ∨ (3 : Int) > 7 then
      (doBoardInit simBus 3 alternateOnlyWorld).1 = ERROR ∧
      (doBoardInit simBus 3 alternateOnlyWorld).2.log = alternateOnlyWorld.log ∧
      (doBoardInit simBus 3 alternateOnlyWorld).2.bus = alternateOnlyWorld.bus
    else if (primaryProbe simBus 3 alternateOnlyWorld).2.1 ≠ ERROR then
      (doBoardInit simBus 3 alternateOnlyWorld).2.log.filter isProbe =
        alternateOnlyWorld.log.filter isProbe ++
          [Txn.setup (primaryAdd 3),
           Txn.read (primaryProbe simBus 3 alternateOnlyWorld).1 MOSFET8_CFG_REG_ADD 1] ∧
      (doBoardInit simBus 3 alternateOnlyWorld).1 =
        if initWriteFails simBus (primaryProbe simBus 3 alternateOnlyWorld).1
            (buffAt (primaryProbe simBus 3 alternateOnlyWorld).2.2.1 0)
            (primaryProbe simBus 3 alternateOnlyWorld).2.2.2
        then ERROR else (primaryProbe simBus 3 alternateOnlyWorld).1
    else
      (doBoardInit simBus 3 alternateOnlyWorld).2.log.filter isProbe =
        alternateOnlyWorld.log.filter isProbe ++
          [Txn.setup (primaryAdd 3),
           Txn.read (primaryProbe simBus 3 alternateOnlyWorld).1 MOSFET8_CFG_REG_ADD 1,
           Txn.setup (alternateAdd 3),
           Txn.read (alternateProbe simBus 3 alternateOnlyWorld).1 MOSFET8_CFG_REG_ADD 1] ∧
      (doBoardInit simBus 3 alternateOnlyWorld).1 =
        if (alternateProbe simBus 3 alternateOnlyWorld).2.1 = ERROR then ERROR
        else if initWriteFails simBus (alternateProbe simBus 3 alternateOnlyWorld).1
            (buffAt (alternateProbe simBus 3 alternateOnlyWorld).2.2.1 0)
            (alternateProbe simBus 3 alternateOnlyWorld).2.2.2
        then ERROR
        else (alternateProbe simBus 3 alternateOnlyWorld).1 :=
  doBoardInit_probe_order simBus 3 alternateOnlyWorld (by decide) (by decide)

/-- The two candidate addresses of each stack level, and what the locator finds on the
bus where only the alternate address of level 3 answers. -/
theorem doBoardInit_addresses :
    (∀ l : Fin 8, primaryAdd l.val = 0x3f - l.val ∧ alternateAdd l.val = 0x27 - l.val) ∧
    (doBoardInit simBus 3 alternateOnlyWorld).1 = 0x24 ∧
    (doBoardInit simBus 3 alternateOnlyWorld).2.log =
      [Txn.setup 0x3c, Txn.read 0x3c 3 1, Txn.setup 0x24, Txn.read 0x24 3 1] := by
  decide

/-! ## The write-verify loops on the simulated bus -/

/-- One attempt of the single-channel loop on the simulated bus: `mosfetChSet` and
`mosfetChGet` both return `OK`; the state read back is the requested one when the write
is latched and the old one otherwise; one write to the output register is logged. -/
theorem chAttempt_sim (w : World SimBus) (dev : Int) (c : Nat) (s stateR : OutStateEnumType)
    (hack : w.bus.ack dev = true) (h1 : 1 ≤ c) (h8 : c ≤ 8) (hs : s = ON ∨ s = OFF) :
    (mosfetChSet simBus dev c s w).1 = OK ∧
    (mosfetChGet simBus dev c stateR (mosfetChSet simBus dev c s w).2).1 = OK ∧
    (mosfetChGet simBus dev c stateR (mosfetChSet simBus dev c s w).2).2.1 =
      (if w.bus.latch w.bus.nwr then s else chState (w.bus.regs dev 1) c) ∧
    (mosfetChGet simBus dev c stateR (mosfetChSet simBus dev c s w).2).2.2.bus.ack
      = w.bus.ack ∧
    (mosfetChGet simBus dev c stateR (mosfetChSet simBus dev c s w).2).2.2.bus.latch
      = w.bus.latch ∧
    (mosfetChGet simBus dev c stateR (mosfetChSet simBus dev c s w).2).2.2.bus.nwr
      = w.bus.nwr + 1 ∧
    (w.bus.latch w.bus.nwr = false →
      (mosfetChGet simBus dev c stateR (mosfetChSet simBus dev c s w).2).2.2.bus.regs
        = w.bus.regs) ∧
    outportWrites (mosfetChGet simBus dev c stateR (mosfetChSet simBus dev c s w).2).2.2.log
      = outportWrites w.log + 1 ∧
    (mosfetChGet simBus dev c stateR (mosfetChSet simBus dev c s w).2).2.2.out = w.out := by
  have hr : mosfetChRemap[c - 1]?.getD 0 = c - 1 := by
    simpa using mosfetChRemap_pred c h1 h8
  have hnot : ¬ (c < CHANNEL_NR_MIN ∨ c > MOSFET_CH_NR_MAX) := by
    simp only [CHANNEL_NR_MIN, MOSFET_CH_NR_MAX]; omega
  by_cases hl : w.bus.latch w.bus.nwr = true
  · rcases hs with rfl | rfl
    · have hb := clearBit_test_fin ⟨buffAt [w.bus.regs dev 1] 0, u8_lt _⟩ ⟨c - 1, by omega⟩
      simp only [buffAt, List.getD_cons_zero] at hb
      simp [mosfetChSet, mosfetChGet, hnot, i2cMem8Read, i2cMem8Write, simBus_read_ack,
        simBus_write_ack, hack, hl, OK_ne_FAIL, hr, MOSFET8_OUTPORT_REG_ADD, storeRegs,
        buffAt, hb, outportWrites, List.filter_append]
    · have hb := setBit_test_fin ⟨buffAt [w.bus.regs dev 1] 0, u8_lt _⟩ ⟨c - 1, by omega⟩
      simp only [buffAt, List.getD_cons_zero] at hb
      simp [mosfetChSet, mosfetChGet, hnot, i2cMem8Read, i2cMem8Write, simBus_read_ack,
        simBus_write_ack, hack, hl, OK_ne_FAIL, hr, MOSFET8_OUTPORT_REG_ADD, storeRegs,
        buffAt, hb, outportWrites, List.filter_append]
  · have hl2 : w.bus.latch w.bus.nwr = false := by simpa using hl
    rcases hs with rfl | rfl
    · simp only [mosfetChSet, mosfetChGet, hnot, if_false, i2cMem8Read, i2cMem8Write,
        simBus_read_ack, simBus_write_ack, hack, hl2, OK_ne_FAIL, hr, chState, buffAt,
        outportWrites]
      simp [List.filter_append, MOSFET8_OUTPORT_REG_ADD]
      split <;> simp_all
    · simp only [mosfetChSet, mosfetChGet, hnot, if_false, i2cMem8Read, i2cMem8Write,
        simBus_read_ack, simBus_write_ack, hack, hl2, OK_ne_FAIL, hr, chState, buffAt,
        outportWrites]
      simp [List.filter_append, MOSFET8_OUTPORT_REG_ADD]
      split <;> simp_all

theorem chLoop_exit (B : Bus σ) (dev : Int) (c : Nat) (s : OutStateEnumType) (retry : Nat)
    (w : World σ) :
    doMosfetWriteChLoop B dev c s retry s w = LoopEnd.exited retry w := by
  cases retry <;> simp [doMosfetWriteChLoop]

/-- The single-channel loop on a simulated bus that drops the next `j` writes and
latches from then on: it leaves after `j + 1` attempts, with `retry - (j + 1)` left. -/
theorem chLoop_sim (dev : Int) (c : Nat) (s : OutStateEnumType) (T : Nat)
    (h1 : 1 ≤ c) (h8 : c ≤ 8) (hs : s = ON ∨ s = OFF) :
    ∀ (j retry : Nat) (stateR : OutStateEnumType) (w : World SimBus),
      w.bus.ack dev = true → (∀ n, w.bus.latch n = decide (T ≤ n)) → w.bus.nwr + j = T →
      chState (w.bus.regs dev 1) c ≠ s → stateR ≠ s → j + 1 ≤ retry →
      ∃ w2, doMosfetWriteChLoop simBus dev c s retry stateR w
              = LoopEnd.exited (retry - (j + 1)) w2 ∧
            outportWrites w2.log = outportWrites w.log + (j + 1) ∧ w2.out = w.out := by
  intro j
  induction j with
  | zero =>
    intro retry stateR w hack hlatch hT _ hne hret
    obtain ⟨r, rfl⟩ : ∃ r, retry = r + 1 := ⟨retry - 1, by omega⟩
    obtain ⟨a1, a2, a3, _, _, _, _, a8, a9⟩ := chAttempt_sim w dev c s stateR hack h1 h8 hs
    have hl : w.bus.latch w.bus.nwr = true := by rw [hlatch]; simp; omega
    rw [hl] at a3
    simp only [if_true] at a3
    refine ⟨(mosfetChGet simBus dev c stateR (mosfetChSet simBus dev c s w).2).2.2, ?_, a8, a9⟩
    rw [doMosfetWriteChLoop]
    simp only [hne, ne_eq, not_false_eq_true, if_true, a1, a2, not_true_eq_false, if_false, a3,
      chLoop_exit]
    simp
  | succ j ih =>
    intro retry stateR w hack hlatch hT hreg hne hret
    obtain ⟨r, rfl⟩ : ∃ r, retry = r + 1 := ⟨retry - 1, by omega⟩
    obtain ⟨a1, a2, a3, a4, a5, a6, a7, a8, a9⟩ :=
      chAttempt_sim w dev c s stateR hack h1 h8 hs
    have hl : w.bus.latch w.bus.nwr = false := by rw [hlatch]; simp; omega
    rw [hl] at a3
    simp only [Bool.false_eq_true, if_false] at a3
    have a7 := a7 hl
    obtain ⟨w2, e1, e2, e3⟩ := ih r (chState (w.bus.regs dev 1) c)
      (mosfetChGet simBus dev c stateR (mosfetChSet simBus dev c s w).2).2.2
      (by rw [a4]; exact hack) (by rw [a5]; exact hlatch) (by rw [a6]; omega)
      (by rw [a7]; exact hreg) hreg (by omega)
    refine ⟨w2, ?_, by rw [e2, a8]; omega, by rw [e3, a9]⟩
    rw [doMosfetWriteChLoop]
    simp only [hne, ne_eq, not_false_eq_true, if_true, a1, a2, not_true_eq_false, if_false, a3,
      e1]
    congr 1
    omega

theorem StateArg.state_on_off (a : StateArg) (s : OutStateEnumType) (h : a.state = some s) :
    s = ON ∨ s = OFF := by
  cases a with
  | wordUp => left; simpa [StateArg.state] using h.symm
  | wordOn => left; simpa [StateArg.state] using h.symm
  | wordDown => right; simpa [StateArg.state] using h.symm
  | wordOff => right; simpa [StateArg.state] using h.symm
  | number n =>
    simp only [StateArg.state] at h
    split at h
    · exact absurd h (by simp)
    · split at h
      · right; simpa using h.symm
      · left; simpa using h.symm

/-- C4 (what the code does): the single-channel write command on a located board
(`doBoardInit` returned a handle `> 0`) behind a simulated bus on which every
transaction succeeds and the read-back first equals the requested state on attempt `k`,
`1 ≤ k ≤ 10`.  Exactly `k` write/read-back attempts are performed; the command returns
`OK` when `k < 10`, but `FAIL` when `k = 10`. -/
theorem doMosfetWrite_channel_attempts (w : World SimBus) (fuel : Nat) (stack c : Int)
    (arg4 : StateArg) (s : OutStateEnumType) (k : Nat)
    (hs : arg4.state = some s)
    (hdev : 0 < (doBoardInit simBus stack w).1)
    (hack : (doBoardInit simBus stack w).2.bus.ack (doBoardInit simBus stack w).1 = true)
    (hlatch : ∀ n, (doBoardInit simBus stack w).2.bus.latch n =
      decide ((doBoardInit simBus stack w).2.bus.nwr + (k - 1) ≤ n))
    (hreg : chState ((doBoardInit simBus stack w).2.bus.regs (doBoardInit simBus stack w).1 1)
      c.toNat ≠ s)
    (hc1 : 1 ≤ c) (hc8 : c ≤ 8) (hk1 : 1 ≤ k) (hk10 : k ≤ 10) :
    ∃ w2, doMosfetWrite simBus fuel 5 stack c arg4 w
            = some (if k = 10 then FAIL else OK, w2) ∧
          outportWrites w2.log = outportWrites (doBoardInit simBus stack w).2.log + k := by
  have hso := StateArg.state_on_off arg4 s hs
  obtain ⟨w2, e1, e2, _⟩ := chLoop_sim (doBoardInit simBus stack w).1 c.toNat s
    ((doBoardInit simBus stack w).2.bus.nwr + (k - 1)) (by omega) (by omega) hso
    (k - 1) RETRY_TIMES STATE_COUNT (doBoardInit simBus stack w).2 hack hlatch rfl hreg
    (by rcases hso with rfl | rfl <;> decide) (by simp only [RETRY_TIMES]; omega)
  have hd : ¬ (doBoardInit simBus stack w).1 ≤ 0 := by omega
  have hpin : ¬ (c < 1 ∨ c > 8) := by omega
  simp only [RETRY_TIMES] at e1
  by_cases hk : k = 10
  · subst hk
    refine ⟨printf "Fail to write mosfet\n" w2, ?_, ?_⟩
    · simp [doMosfetWrite, hd, hpin, hs, e1, RETRY_TIMES]
    · simpa [printf] using e2
  · refine ⟨w2, ?_, ?_⟩
    · simp [doMosfetWrite, hd, hpin, hs, e1, hk, RETRY_TIMES]
      omega
    · rw [e2]; omega

theorem doMosfetWrite_channel_attempts_witness :
    ∃ w2, doMosfetWrite simBus 0 5 0 5 StateArg.wordOn latchTenthWorld
            = some (if 10 = 10 then FAIL else OK, w2) ∧
          outportWrites w2.log = outportWrites (doBoardInit simBus 0 latchTenthWorld).2.log + 10 :=
  doMosfetWrite_channel_attempts latchTenthWorld 0 0 5 StateArg.wordOn ON 10 rfl (by decide)
    rfl (fun _ => rfl) (by decide) (by decide) (by decide) (by decide) (by decide)

/-- One attempt of the value loop on a simulated bus that does not latch the write:
`mosfetSet` and `mosfetGet` both return `OK`, the value read back is the one the
unchanged output register decodes to, and the bus only counts one more write. -/
theorem valAttempt_stuck (w : World SimBus) (dev : Int) (val valR : Int)
    (hack : w.bus.ack dev = true) (hl : w.bus.latch w.bus.nwr = false) :
    (mosfetSet simBus dev val w).1 = OK ∧
    (mosfetGet simBus dev valR (mosfetSet simBus dev val w).2).1 = OK ∧
    (mosfetGet simBus dev valR (mosfetSet simBus dev val w).2).2.1 =
      (IOToMosfet (u8 (w.bus.regs dev 1)) : Int) ∧
    (mosfetGet simBus dev valR (mosfetSet simBus dev val w).2).2.2.bus.ack = w.bus.ack ∧
    (mosfetGet simBus dev valR (mosfetSet simBus dev val w).2).2.2.bus.latch = w.bus.latch ∧
    (mosfetGet simBus dev valR (mosfetSet simBus dev val w).2).2.2.bus.regs = w.bus.regs := by
  simp [mosfetSet, mosfetGet, i2cMem8Read, i2cMem8Write, simBus_read_ack, simBus_write_ack,
    hack, hl, OK_ne_FAIL, MOSFET8_OUTPORT_REG_ADD, buffAt]

/-- The value loop on a simulated bus that never latches, with a read-back that differs
from the requested value: no number of iterations ends it. -/
theorem valLoop_stuck (dev : Int) (val : Int) (retry : Nat) (hretry : 0 < retry) :
    ∀ (fuel : Nat) (valR : Int) (w : World SimBus),
      w.bus.ack dev = true → (∀ n, w.bus.latch n = false) →
      (IOToMosfet (u8 (w.bus.regs dev 1)) : Int) ≠ val → valR ≠ val →
      doMosfetWriteValLoop simBus dev val retry fuel valR w = none := by
  intro fuel
  induction fuel with
  | zero => intro valR w _ _ _ _; rfl
  | succ fuel ih =>
    intro valR w hack hlatch hreg hne
    obtain ⟨a1, a2, a3, a4, a5, a6⟩ := valAttempt_stuck w dev val valR hack (hlatch _)
    rw [doMosfetWriteValLoop]
    have hcond : retry > 0 ∧ valR ≠ val := ⟨hretry, hne⟩
    simp only [hcond, and_self, if_true, a1, a2, ne_eq, not_true_eq_false, if_false, a3]
    exact ih _ _ (by rw [a4]; exact hack) (by rw [a5]; exact hlatch) (by rw [a6]; exact hreg)
      hreg

/-- C5 (what the code does): the bulk write command (`write <value>`, `argc = 4`) on a
located board behind a simulated bus on which every transaction succeeds but the
read-back never equals the value `v`: the loop of lines 607-620 never changes `retry`,
so for every bound `fuel` on the number of iterations the command is still in the loop;
it neither stops after 10 attempts nor returns. -/
theorem doMosfetWrite_value_never_returns (w : World SimBus) (fuel : Nat) (stack v : Int)
    (arg4 : StateArg)
    (hdev : 0 < (doBoardInit simBus stack w).1)
    (hack : (doBoardInit simBus stack w).2.bus.ack (doBoardInit simBus stack w).1 = true)
    (hlatch : ∀ n, (doBoardInit simBus stack w).2.bus.latch n = false)
    (hreg : (IOToMosfet (u8 ((doBoardInit simBus stack w).2.bus.regs
      (doBoardInit simBus stack w).1 1)) : Int) ≠ v)
    (hv0 : 0 ≤ v) (hv255 : v ≤ 255) :
    doMosfetWrite simBus fuel 4 stack v arg4 w = none := by
  have hd : ¬ (doBoardInit simBus stack w).1 ≤ 0 := by omega
  have hval : ¬ (v < 0 ∨ v > 255) := by omega
  have hloop := valLoop_stuck (doBoardInit simBus stack w).1 v RETRY_TIMES (by decide) fuel (-1)
    (doBoardInit simBus stack w).2 hack hlatch hreg (by omega)
  simp [doMosfetWrite, hd, hval, hloop]

theorem doMosfetWrite_value_never_returns_witness :
    doMosfetWrite simBus 1000 4 0 5 StateArg.wordOn stuckWorld = none :=
  doMosfetWrite_value_never_returns stuckWorld 1000 0 5 StateArg.wordOn (by decide) rfl
    (fun _ => rfl) (by decide) (by decide) (by decide)

/-- The bulk write command does return when the bus latches: on the storing bus it
returns `OK` after one attempt (two writes of the output register are logged: the
initialization of the board and the attempt). -/
theorem doMosfetWrite_value_latching_returns :
    (doMosfetWrite simBus 2 4 0 5 StateArg.wordOn storingWorld).map
      (fun r => (r.1, outportWrites r.2.log)) = some (OK, 2) := by
  decide

/-! ## PWM duty encoding -/

/-- C9, as stated, fails: the duty `0.75` (exactly `3 * 2^-2`) on channel 1 is written
as raw `7` (bytes `7, 0` at register `I2C_MEM_PWM1`), while
`round(clamp(0.75, 0, 100) × 10) = round(7.5) = 8`. -/
theorem mosfetChSetPwm_round_counterexample :
    (mosfetChSetPwm simBus 0x3f 1 ⟨3, -2⟩ storingWorld).2.log
      = [Txn.write 0x3f I2C_MEM_PWM1 [7, 0]] ∧
    CFloat.toRat ⟨3, -2⟩ = 3 / 4 ∧
    specPwmRaw (3 / 4) = 8 := by
  refine ⟨by decide, by norm_num [CFloat.toRat], ?_⟩
  have h : max (0 : ℚ) (min 100 (3 / 4)) * 10 = 15 / 2 := by norm_num
  rw [specPwmRaw, h, round_eq, Int.floor_eq_iff]
  norm_num

theorem CFloat.lt_zero_iff (d : CFloat) : CFloat.lt d (CFloat.ofInt 0) = true ↔ d.m < 0 := by
  simp only [CFloat.lt, CFloat.ofInt, CFloat.scaled, zero_mul, decide_eq_true_eq]
  have hp : (0 : Int) < 2 ^ (d.e - min d.e 0).toNat := by positivity
  constructor
  · intro h
    by_contra hn
    have : 0 ≤ d.m * 2 ^ (d.e - min d.e 0).toNat := mul_nonneg (by omega) hp.le
    omega
  · intro h
    exact mul_neg_of_neg_of_pos h hp

theorem CFloat.pos_of_hundred_lt (d : CFloat) (h : CFloat.lt (CFloat.ofInt 100) d = true) :
    0 < d.m := by
  simp only [CFloat.lt, CFloat.ofInt, CFloat.scaled, decide_eq_true_eq] at h
  have hp : (0 : Int) < 2 ^ (d.e - min 0 d.e).toNat := by positivity
  have hq : (0 : Int) < 100 * 2 ^ (0 - min 0 d.e).toNat := by positivity
  by_contra hn
  have : d.m * 2 ^ (d.e - min 0 d.e).toNat ≤ 0 :=
    mul_nonpos_of_nonpos_of_nonneg (by omega) hp.le
  omega

theorem CFloat.round32_m_nonneg (num den : Nat) : 0 ≤ (CFloat.round32 num den).m := by
  unfold CFloat.round32
  split
  · exact le_refl _
  · dsimp only
    split <;> exact Int.ofNat_nonneg _

theorem CFloat.mulNat_m_nonneg (a : CFloat) (n : Nat) : 0 ≤ (a.mulNat n).m := by
  unfold CFloat.mulNat
  split <;> exact CFloat.round32_m_nonneg _ _

/-- Truncation is the integer part: for a non-negative value, `trunc` is the floor of
the rational number the value stands for. -/
theorem CFloat.trunc_eq_floor (a : CFloat) (hm : 0 ≤ a.m) : a.trunc = ⌊a.toRat⌋ := by
  unfold CFloat.trunc CFloat.toRat
  by_cases he : a.e ≥ 0
  · rw [if_pos he]
    obtain ⟨k, hk⟩ : ∃ k : Nat, a.e = k := ⟨a.e.toNat, by omega⟩
    rw [hk]
    simp only [Int.toNat_ofNat, zpow_natCast]
    have : ((a.m : ℚ) * 2 ^ k) = ((a.m * 2 ^ k : Int) : ℚ) := by push_cast; ring
    rw [this, Int.floor_intCast]
  · rw [if_neg he]
    obtain ⟨k, hk⟩ : ∃ k : Nat, a.e = -(k : Int) := ⟨(-a.e).toNat, by omega⟩
    rw [hk]
    simp only [neg_neg, Int.toNat_ofNat, zpow_neg, zpow_natCast]
    have h2 : ((a.m : ℚ) * (2 ^ k)⁻¹) = (a.m : ℚ) / ((2 ^ k : Nat) : ℚ) := by
      push_cast; ring
    rw [h2, Rat.floor_intCast_div_natCast, Int.tdiv_eq_ediv hm (by positivity)]
    push_cast
    rfl

theorem clampDuty_eq (d : CFloat) :
    (if CFloat.lt (if CFloat.lt (CFloat.ofInt 100) d then CFloat.ofInt 100 else d)
          (CFloat.ofInt 0) then CFloat.ofInt 0
      else (if CFloat.lt (CFloat.ofInt 100) d then CFloat.ofInt 100 else d)) = clampDuty d := by
  unfold clampDuty
  by_cases h : CFloat.lt (CFloat.ofInt 100) d = true
  · have h0 : CFloat.lt (CFloat.ofInt 100) (CFloat.ofInt 0) = false := by decide
    simp [h, h0]
  · simp [h]

theorem clampDuty_of_neg (d : CFloat) (h : CFloat.lt d (CFloat.ofInt 0) = true) :
    clampDuty d = CFloat.ofInt 0 := by
  have hm := (CFloat.lt_zero_iff d).mp h
  have h100 : ¬ CFloat.lt (CFloat.ofInt 100) d = true := by
    intro h2
    have := CFloat.pos_of_hundred_lt d h2
    omega
  simp [clampDuty, h, h100]

/-- C9 (amended): for every channel `c` in 1..8 and every duty `d`, `mosfetChSetPwm`
issues one write, of two little-endian bytes of an unsigned 16-bit `raw`, at register
`I2C_MEM_PWM1 + 2 * (c - 1)`; `raw` is the integer part (the fraction is dropped, not
rounded) of the single-precision product `clamp(d, 0, 100) × 10`; `d < 0` encodes as
`0` and `d > 100` as `1000`. -/
theorem mosfetChSetPwm_encoding (B : Bus σ) (w : World σ) (dev : Int) (c : Nat) (d : CFloat)
    (h1 : 1 ≤ c) (h8 : c ≤ 8) :
    ∃ raw : Nat,
      (mosfetChSetPwm B dev c d w).2.log =
        w.log ++ [Txn.write dev (I2C_MEM_PWM1 + 2 * (c - 1)) [raw % 256, raw / 256]] ∧
      raw < 65536 ∧
      raw = ⌊((clampDuty d).mulNat 10).toRat⌋.toNat % 65536 ∧
      (CFloat.lt d (CFloat.ofInt 0) = true → raw = 0) ∧
      (CFloat.lt (CFloat.ofInt 100) d = true → raw = 1000) := by
  have hnot : ¬ (c < CHANNEL_NR_MIN ∨ c > MOSFET_CH_NR_MAX) := by
    simp only [CHANNEL_NR_MIN, MOSFET_CH_NR_MAX]; omega
  refine ⟨u16 ((clampDuty d).mulNat 10).trunc.toNat, ?_, Nat.mod_lt _ (by decide), ?_, ?_, ?_⟩
  · simp only [mosfetChSetPwm, hnot, if_false, clampDuty_eq, i2cMem8Write, PWM_SIZE_B]
  · rw [CFloat.trunc_eq_floor _ (CFloat.mulNat_m_nonneg _ _)]
    rfl
  · intro h
    rw [clampDuty_of_neg d h]
    decide
  · intro h
    simp only [clampDuty, h, if_true]
    decide

theorem mosfetChSetPwm_encoding_witness :
    ∃ raw : Nat,
      (mosfetChSetPwm simBus 0x3f 2 ⟨45, 0⟩ storingWorld).2.log =
        storingWorld.log ++ [Txn.write 0x3f (I2C_MEM_PWM1 + 2 * (2 - 1)) [raw % 256, raw / 256]] ∧
      raw < 65536 ∧
      raw = ⌊((clampDuty ⟨45, 0⟩).mulNat 10).toRat⌋.toNat % 65536 ∧
      (CFloat.lt ⟨45, 0⟩ (CFloat.ofInt 0) = true → raw = 0) ∧
      (CFloat.lt (CFloat.ofInt 100) ⟨45, 0⟩ = true → raw = 1000) :=
  mosfetChSetPwm_encoding simBus storingWorld 0x3f 2 ⟨45, 0⟩ (by decide) (by decide)

/-- The scenario of the specification: duty `45` on channel 2 is written as raw `450`
at register `9` and read back as `45`; the duties `-1` and `150` are written as raw
`0` and `1000`. -/
theorem mosfetChSetPwm_examples :
    (mosfetChSetPwm simBus 0x3f 2 ⟨45, 0⟩ storingWorld).2.log
      = [Txn.write 0x3f 9 [450 % 256, 450 / 256]] ∧
    CFloat.ne (mosfetChGetPwm simBus 0x3f 2 ⟨101, 0⟩
      (mosfetChSetPwm simBus 0x3f 2 ⟨45, 0⟩ storingWorld).2).2.1 ⟨45, 0⟩ = false ∧
    (mosfetChSetPwm simBus 0x3f 2 ⟨-1, 0⟩ storingWorld).2.log
      = [Txn.write 0x3f 9 [0, 0]] ∧
    (mosfetChSetPwm simBus 0x3f 2 ⟨150, 0⟩ storingWorld).2.log
      = [Txn.write 0x3f 9 [1000 % 256, 1000 / 256]] := by
  decide

/-! ## Argument errors -/

/-- C7, as stated, fails.  `write 9 on` on stack 0 returns `FAIL` only after
`doBoardInit` has opened the address, read the configuration register and, the board
being uninitialized, written the configuration and output registers.  `pwmwr 1 150`
does not reject the duty: it writes the clamped raw value `1000` to the PWM register. -/
theorem argument_error_counterexample :
    (doMosfetWrite simBus 0 5 0 9 StateArg.wordOn storingWorld).map (fun r => (r.1, r.2.log))
      = some (FAIL, [Txn.setup 0x3f, Txn.read 0x3f 3 1, Txn.write 0x3f 3 [0],
                     Txn.write 0x3f 1 [0xff]]) ∧
    ((doMosfetPWMWrite simBus 5 0 1 ⟨150, 0⟩ storingWorld).2.log.take 5
      = [Txn.setup 0x3f, Txn.read 0x3f 3 1, Txn.write 0x3f 3 [0], Txn.write 0x3f 1 [0xff],
         Txn.write 0x3f 7 [1000 % 256, 1000 / 256]]) := by
  decide

/-- C7 (amended): the `write` and `pwmwr` commands with a channel outside 1..8, and the
`fwr` command with a frequency outside `[16, 1000]`, return `FAIL` having issued the bus
transactions of `doBoardInit` and no other: the transaction log and the bus state are
those `doBoardInit` left. -/
theorem argument_error_after_board_init (B : Bus σ) (freqReg fuel : Nat) (stack c f : Int)
    (arg4 : StateArg) (d : CFloat) (w : World σ)
    (hc : c < 1 ∨ c > 8) (hf : f < 16 ∨ f > 1000) :
    (∃ w2, doMosfetWrite B fuel 5 stack c arg4 w = some (FAIL, w2) ∧
      w2.log = (doBoardInit B stack w).2.log ∧ w2.bus = (doBoardInit B stack w).2.bus) ∧
    ((doMosfetPWMWrite B 5 stack c d w).1 = FAIL ∧
      (doMosfetPWMWrite B 5 stack c d w).2.log = (doBoardInit B stack w).2.log ∧
      (doMosfetPWMWrite B 5 stack c d w).2.bus = (doBoardInit B stack w).2.bus) ∧
    ((doMosfetFreqWr B freqReg 4 stack f w).1 = FAIL ∧
      (doMosfetFreqWr B freqReg 4 stack f w).2.log = (doBoardInit B stack w).2.log ∧
      (doMosfetFreqWr B freqReg 4 stack f w).2.bus = (doBoardInit B stack w).2.bus) := by
  have hf2 : f < MOS_MIN_FREQ ∨ f > MOS_MAX_FREQ := hf
  refine ⟨?_, ?_, ?_⟩
  · by_cases hd : (doBoardInit B stack w).1 ≤ 0
    · exact ⟨(doBoardInit B stack w).2, by simp [doMosfetWrite, hd], rfl, rfl⟩
    · exact ⟨printf "Mosfet number value out of range\n" (doBoardInit B stack w).2,
        by simp [doMosfetWrite, hd, hc], rfl, rfl⟩
  · by_cases hd : (doBoardInit B stack w).1 ≤ 0
    · simp [doMosfetPWMWrite, hd]
    · simp [doMosfetPWMWrite, hd, hc, printf]
  · by_cases hd : (doBoardInit B stack w).1 ≤ 0
    · simp [doMosfetFreqWr, hd]
    · simp [doMosfetFreqWr, hd, mosfetSetFrequency, hf2, printf, OK, FAIL, ERROR]

theorem argument_error_after_board_init_witness :
    (∃ w2, doMosfetWrite simBus 0 5 0 9 StateArg.wordOn storingWorld = some (FAIL, w2) ∧
      w2.log = (doBoardInit simBus 0 storingWorld).2.log ∧
      w2.bus = (doBoardInit simBus 0 storingWorld).2.bus) ∧
    ((doMosfetPWMWrite simBus 5 0 9 ⟨45, 0⟩ storingWorld).1 = FAIL ∧
      (doMosfetPWMWrite simBus 5 0 9 ⟨45, 0⟩ storingWorld).2.log
        = (doBoardInit simBus 0 storingWorld).2.log ∧
      (doMosfetPWMWrite simBus 5 0 9 ⟨45, 0⟩ storingWorld).2.bus
        = (doBoardInit simBus 0 storingWorld).2.bus) ∧
    ((doMosfetFreqWr simBus 0x28 4 0 2000 storingWorld).1 = FAIL ∧
      (doMosfetFreqWr simBus 0x28 4 0 2000 storingWorld).2.log
        = (doBoardInit simBus 0 storingWorld).2.log ∧
      (doMosfetFreqWr simBus 0x28 4 0 2000 storingWorld).2.bus
        = (doBoardInit simBus 0 storingWorld).2.bus) :=
  argument_error_after_board_init simBus 0x28 0 0 9 2000 StateArg.wordOn ⟨45, 0⟩ storingWorld
    (by decide) (by decide)

/-! ## How failures are reported -/

/-- C6, as stated, fails for `doMosfetWrite`.  `write 5 on` against a bus that never
latches makes ten attempts, all transactions successful, and reports `FAIL` with
`Fail to write mosfet`; against a bus whose write transaction errors it reports the
same return code and the same message after the first failed write. -/
theorem doMosfetWrite_same_report_counterexample :
    (doMosfetWrite simBus 0 5 0 5 StateArg.wordOn stuckWorld).map
        (fun r => (r.1, r.2.out, outportWrites r.2.log))
      = some (FAIL, ["Fail to write mosfet\n"], 10) ∧
    (doMosfetWrite readOnlyBus 0 5 0 5 StateArg.wordOn stuckWorld).map
        (fun r => (r.1, r.2.out, outportWrites r.2.log))
      = some (FAIL, ["Fail to write mosfet\n"], 1) ∧
    (mosfetChSet readOnlyBus 0x3f 5 ON (doBoardInit readOnlyBus 0 stuckWorld).2).1 = ERROR := by
  decide

theorem doBoardInitExpander_out (B : Bus σ) (dev : Int) (cfg : Nat) (w : World σ) :
    (doBoardInitExpander B dev cfg w).2.out = w.out := by
  unfold doBoardInitExpander
  by_cases hc : cfg ≠ 0
  · by_cases h1 : 0 > (B.i2cMem8Write w.bus dev MOSFET8_CFG_REG_ADD [0]).1
    · simp [hc, i2cMem8Write, h1]
    · by_cases h2 : 0 > (B.i2cMem8Write (B.i2cMem8Write w.bus dev MOSFET8_CFG_REG_ADD [0]).2
          dev MOSFET8_OUTPORT_REG_ADD [0xff]).1
      · simp [hc, i2cMem8Write, h1, h2]
      · simp [hc, i2cMem8Write, h1, h2]
  · simp [hc]

/-- A located board: when `doBoardInit` returns a handle `> 0` it has printed nothing. -/
theorem doBoardInit_out (B : Bus σ) (stack : Int) (w : World σ)
    (h : 0 < (doBoardInit B stack w).1) : (doBoardInit B stack w).2.out = w.out := by
  unfold doBoardInit at h ⊢
  have hE : ¬ (0 : Int) < ERROR := by decide
  split
  · next hs => rw [if_pos hs] at h; exact absurd h hE
  · next hs =>
    rw [if_neg hs] at h
    dsimp only at h ⊢
    split
    · next h1 => rw [if_pos h1] at h; exact absurd h hE
    · next h1 =>
      rw [if_neg h1] at h
      split
      · next h2 =>
        rw [if_pos h2] at h
        split
        · next h3 => rw [if_pos h3] at h; exact absurd h hE
        · next h3 =>
          rw [if_neg h3] at h
          split
          · next h4 => rw [if_pos h4] at h; exact absurd h hE
          · next h4 => rw [doBoardInitExpander_out]; simp [i2cMem8Read, i2cSetup]
      · next h2 => rw [doBoardInitExpander_out]; simp [i2cMem8Read, i2cSetup]

/-- The single-channel loop on a simulated bus that never latches, with a register
that does not show the requested state: all `retry` attempts are made and the loop
leaves with `retry = 0`. -/
theorem chLoop_stuck (dev : Int) (c : Nat) (s : OutStateEnumType)
    (h1 : 1 ≤ c) (h8 : c ≤ 8) (hs : s = ON ∨ s = OFF) :
    ∀ (retry : Nat) (stateR : OutStateEnumType) (w : World SimBus),
      w.bus.ack dev = true → (∀ n, w.bus.latch n = false) →
      chState (w.bus.regs dev 1) c ≠ s → stateR ≠ s →
      ∃ w2, doMosfetWriteChLoop simBus dev c s retry stateR w = LoopEnd.exited 0 w2 ∧
            outportWrites w2.log = outportWrites w.log + retry ∧ w2.out = w.out := by
  intro retry
  induction retry with
  | zero =>
    intro stateR w _ _ _ _
    exact ⟨w, by simp [doMosfetWriteChLoop], rfl, rfl⟩
  | succ r ih =>
    intro stateR w hack hlatch hreg hne
    obtain ⟨a1, a2, a3, a4, a5, _, a7, a8, a9⟩ :=
      chAttempt_sim w dev c s stateR hack h1 h8 hs
    have hl := hlatch w.bus.nwr
    rw [hl] at a3
    simp only [Bool.false_eq_true, if_false] at a3
    have a7 := a7 hl
    obtain ⟨w2, e1, e2, e3⟩ := ih (chState (w.bus.regs dev 1) c)
      (mosfetChGet simBus dev c stateR (mosfetChSet simBus dev c s w).2).2.2
      (by rw [a4]; exact hack) (by rw [a5]; exact hlatch) (by rw [a7]; exact hreg) hreg
    refine ⟨w2, ?_, by rw [e2, a8]; omega, by rw [e3, a9]⟩
    rw [doMosfetWriteChLoop]
    simp only [hne, ne_eq, not_false_eq_true, if_true, a1, a2, not_true_eq_false, if_false, a3,
      e1]

/-- One attempt of the PWM loop on a simulated bus that does not latch the write. -/
theorem pwmAttempt_stuck (w : World SimBus) (dev : Int) (c : Nat) (d pwmR : CFloat)
    (hack : w.bus.ack dev = true) (h1 : 1 ≤ c) (h8 : c ≤ 8)
    (hl : w.bus.latch w.bus.nwr = false) :
    (mosfetChSetPwm simBus dev c d w).1 = OK ∧
    (mosfetChGetPwm simBus dev c pwmR (mosfetChSetPwm simBus dev c d w).2).1 = OK ∧
    (mosfetChGetPwm simBus dev c pwmR (mosfetChSetPwm simBus dev c d w).2).2.1 =
      pwmReadBack w.bus.regs dev c ∧
    (mosfetChGetPwm simBus dev c pwmR (mosfetChSetPwm simBus dev c d w).2).2.2.bus.ack
      = w.bus.ack ∧
    (mosfetChGetPwm simBus dev c pwmR (mosfetChSetPwm simBus dev c d w).2).2.2.bus.latch
      = w.bus.latch ∧
    (mosfetChGetPwm simBus dev c pwmR (mosfetChSetPwm simBus dev c d w).2).2.2.bus.regs
      = w.bus.regs ∧
    writesTo (I2C_MEM_PWM1 + 2 * (c - 1))
      (mosfetChGetPwm simBus dev c pwmR (mosfetChSetPwm simBus dev c d w).2).2.2.log
      = writesTo (I2C_MEM_PWM1 + 2 * (c - 1)) w.log + 1 ∧
    (mosfetChGetPwm simBus dev c pwmR (mosfetChSetPwm simBus dev c d w).2).2.2.out = w.out := by
  have hnot : ¬ (c < CHANNEL_NR_MIN ∨ c > MOSFET_CH_NR_MAX) := by
    simp only [CHANNEL_NR_MIN, MOSFET_CH_NR_MAX]; omega
  simp [mosfetChSetPwm, mosfetChGetPwm, hnot, i2cMem8Read, i2cMem8Write, simBus_read_ack,
    simBus_write_ack, hack, hl, OK_ne_FAIL, buffAt, pwmReadBack, writesTo, List.filter_append,
    PWM_SIZE_B, List.range_succ]

/-- The PWM loop on a simulated bus that never latches, with a read-back that differs
from the requested duty: all `retry` attempts are made and the loop leaves with
`retry = 0`. -/
theorem pwmLoop_stuck (dev : Int) (c : Nat) (d : CFloat) (h1 : 1 ≤ c) (h8 : c ≤ 8) :
    ∀ (retry : Nat) (pwmR : CFloat) (w : World SimBus),
      w.bus.ack dev = true → (∀ n, w.bus.latch n = false) →
      CFloat.ne (pwmReadBack w.bus.regs dev c) d = true → CFloat.ne pwmR d = true →
      ∃ w2, doMosfetPWMWriteLoop simBus dev c d retry pwmR w = LoopEnd.exited 0 w2 ∧
            writesTo (I2C_MEM_PWM1 + 2 * (c - 1)) w2.log
              = writesTo (I2C_MEM_PWM1 + 2 * (c - 1)) w.log + retry ∧
            w2.out = w.out := by
  intro retry
  induction retry with
  | zero =>
    intro pwmR w _ _ _ _
    exact ⟨w, by simp [doMosfetPWMWriteLoop], rfl, rfl⟩
  | succ r ih =>
    intro pwmR w hack hlatch hreg hne
    obtain ⟨a1, a2, a3, a4, a5, a6, a7, a8⟩ :=
      pwmAttempt_stuck w dev c d pwmR hack h1 h8 (hlatch _)
    obtain ⟨w2, e1, e2, e3⟩ := ih (pwmReadBack w.bus.regs dev c)
      (mosfetChGetPwm simBus dev c pwmR (mosfetChSetPwm simBus dev c d w).2).2.2
      (by rw [a4]; exact hack) (by rw [a5]; exact hlatch) (by rw [a6]; exact hreg) hreg
    refine ⟨w2, ?_, by rw [e2, a7]; omega, by rw [e3, a8]⟩
    rw [doMosfetPWMWriteLoop]
    simp only [hne, if_true, a1, a2, ne_eq, not_true_eq_false, if_false, a3, e1]

/-- On the bus of read-only devices the first attempt of the single-channel loop ends
the command: the write transaction of `mosfetChSet` errors. -/
theorem chLoop_readOnly (dev : Int) (c : Nat) (s stateR : OutStateEnumType) (r : Nat)
    (w : World SimBus) (h1 : 1 ≤ c) (h8 : c ≤ 8) (hs : s = ON ∨ s = OFF) (hne : stateR ≠ s) :
    ∃ w2, doMosfetWriteChLoop readOnlyBus dev c s (r + 1) stateR w
            = LoopEnd.returned FAIL w2 ∧ w2.out = w.out ++ ["Fail to write mosfet\n"] := by
  have hnot : ¬ (c < CHANNEL_NR_MIN ∨ c > MOSFET_CH_NR_MAX) := by
    simp only [CHANNEL_NR_MIN, MOSFET_CH_NR_MAX]; omega
  have hset : (mosfetChSet readOnlyBus dev c s w).1 = ERROR ∧
      (mosfetChSet readOnlyBus dev c s w).2.out = w.out := by
    rcases hs with rfl | rfl <;>
      simp [mosfetChSet, hnot, i2cMem8Read, i2cMem8Write, readOnlyBus, OK_ne_FAIL]
  refine ⟨printf "Fail to write mosfet\n" (mosfetChSet readOnlyBus dev c s w).2, ?_, ?_⟩
  · rw [doMosfetWriteChLoop]
    simp [hne, hset.1, OK, ERROR]
  · simp [printf, hset.2]

/-- On the bus of read-only devices the first attempt of the PWM loop ends the command:
the write transaction of `mosfetChSetPwm` errors. -/
theorem pwmLoop_readOnly (dev : Int) (c : Nat) (d pwmR : CFloat) (r : Nat)
    (w : World SimBus) (h1 : 1 ≤ c) (h8 : c ≤ 8) (hne : CFloat.ne pwmR d = true) :
    ∃ w2, doMosfetPWMWriteLoop readOnlyBus dev c d (r + 1) pwmR w
            = LoopEnd.returned FAIL w2 ∧
          w2.out = w.out ++ ["Fail to write mosfet or not PWM capable board\n"] := by
  have hnot : ¬ (c < CHANNEL_NR_MIN ∨ c > MOSFET_CH_NR_MAX) := by
    simp only [CHANNEL_NR_MIN, MOSFET_CH_NR_MAX]; omega
  have hset : (mosfetChSetPwm readOnlyBus dev c d w).1 = ERROR ∧
      (mosfetChSetPwm readOnlyBus dev c d w).2.out = w.out := by
    simp [mosfetChSetPwm, hnot, i2cMem8Write, readOnlyBus]
  refine ⟨printf "Fail to write mosfet or not PWM capable board\n"
    (mosfetChSetPwm readOnlyBus dev c d w).2, ?_, ?_⟩
  · rw [doMosfetPWMWriteLoop]
    simp [hne, hset.1, OK, ERROR]
  · simp [printf, hset.2]

/-- C6 (amended): on a located board, with a valid channel and state.  In
`doMosfetPWMWrite` the report of ten attempts without a read-back match (`FAIL`,
`Fail to write mosfet`) differs in its message from the report of a bus write that
errors (`FAIL`, `Fail to write mosfet or not PWM capable board`); the return code is
the same.  In `doMosfetWrite` the two reports are the same: `FAIL` and
`Fail to write mosfet`.  The verify failures are taken on the simulated bus that never
latches, the write errors on the bus of read-only devices. -/
theorem failure_reports (w : World SimBus) (fuel : Nat) (stack c : Int) (arg4 : StateArg)
    (s : OutStateEnumType) (d : CFloat)
    (hc1 : 1 ≤ c) (hc8 : c ≤ 8) (hs : arg4.state = some s)
    (hd : CFloat.ne (CFloat.ofInt 101) d = true)
    (hdev : 0 < (doBoardInit simBus stack w).1)
    (hack : (doBoardInit simBus stack w).2.bus.ack (doBoardInit simBus stack w).1 = true)
    (hlatch : ∀ n, (doBoardInit simBus stack w).2.bus.latch n = false)
    (hch : chState ((doBoardInit simBus stack w).2.bus.regs (doBoardInit simBus stack w).1 1)
      c.toNat ≠ s)
    (hpwm : CFloat.ne (pwmReadBack (doBoardInit simBus stack w).2.bus.regs
      (doBoardInit simBus stack w).1 c.toNat) d = true)
    (hdevR : 0 < (doBoardInit readOnlyBus stack w).1) :
    ((doMosfetPWMWrite simBus 5 stack c d w).1 = FAIL ∧
      (doMosfetPWMWrite simBus 5 stack c d w).2.out = w.out ++ ["Fail to write mosfet\n"] ∧
      writesTo (I2C_MEM_PWM1 + 2 * (c.toNat - 1)) (doMosfetPWMWrite simBus 5 stack c d w).2.log
        = writesTo (I2C_MEM_PWM1 + 2 * (c.toNat - 1)) (doBoardInit simBus stack w).2.log + 10) ∧
    ((doMosfetPWMWrite readOnlyBus 5 stack c d w).1 = FAIL ∧
      (doMosfetPWMWrite readOnlyBus 5 stack c d w).2.out
        = w.out ++ ["Fail to write mosfet or not PWM capable board\n"]) ∧
    (∃ w2, doMosfetWrite simBus fuel 5 stack c arg4 w = some (FAIL, w2) ∧
      w2.out = w.out ++ ["Fail to write mosfet\n"] ∧
      outportWrites w2.log = outportWrites (doBoardInit simBus stack w).2.log + 10) ∧
    (∃ w2, doMosfetWrite readOnlyBus fuel 5 stack c arg4 w = some (FAIL, w2) ∧
      w2.out = w.out ++ ["Fail to write mosfet\n"]) ∧
    "Fail to write mosfet\n" ≠ "Fail to write mosfet or not PWM capable board\n" := by
  have hso := StateArg.state_on_off arg4 s hs
  have hsne : STATE_COUNT ≠ s := by rcases hso with rfl | rfl <;> decide
  have hpin : ¬ (c < 1 ∨ c > 8) := by omega
  have hd0 : ¬ (doBoardInit simBus stack w).1 ≤ 0 := by omega
  have hd0R : ¬ (doBoardInit readOnlyBus stack w).1 ≤ 0 := by omega
  have hout := doBoardInit_out simBus stack w hdev
  have houtR := doBoardInit_out readOnlyBus stack w hdevR
  obtain ⟨p2, p1, pc, po⟩ := pwmLoop_stuck (doBoardInit simBus stack w).1 c.toNat d (by omega)
    (by omega) 10 (CFloat.ofInt 101) (doBoardInit simBus stack w).2 hack hlatch hpwm hd
  obtain ⟨q2, q1, qo⟩ := pwmLoop_readOnly (doBoardInit readOnlyBus stack w).1 c.toNat d
    (CFloat.ofInt 101) 9 (doBoardInit readOnlyBus stack w).2 (by omega) (by omega) hd
  obtain ⟨c2, c1, cc, co⟩ := chLoop_stuck (doBoardInit simBus stack w).1 c.toNat s (by omega)
    (by omega) hso 10 STATE_COUNT (doBoardInit simBus stack w).2 hack hlatch hch hsne
  obtain ⟨r2, r1, ro⟩ := chLoop_readOnly (doBoardInit readOnlyBus stack w).1 c.toNat s
    STATE_COUNT 9 (doBoardInit readOnlyBus stack w).2 (by omega) (by omega) hso hsne
  refine ⟨?_, ?_, ?_, ?_, by decide⟩
  · simp [doMosfetPWMWrite, hd0, hpin, RETRY_TIMES, p1, printf, po, hout, pc]
  · simp [doMosfetPWMWrite, hd0R, hpin, RETRY_TIMES, q1, qo, houtR]
  · exact ⟨printf "Fail to write mosfet\n" c2,
      by simp [doMosfetWrite, hd0, hpin, hs, RETRY_TIMES, c1],
      by simp [printf, co, hout], by simpa [printf] using cc⟩
  · exact ⟨r2, by simp [doMosfetWrite, hd0R, hpin, hs, RETRY_TIMES, r1],
      by simp [ro, houtR]⟩

theorem failure_reports_witness :
    ((doMosfetPWMWrite simBus 5 0 2 ⟨45, 0⟩ stuckWorld).1 = FAIL ∧
      (doMosfetPWMWrite simBus 5 0 2 ⟨45, 0⟩ stuckWorld).2.out
        = stuckWorld.out ++ ["Fail to write mosfet\n"] ∧
      writesTo (I2C_MEM_PWM1 + 2 * ((2 : Int).toNat - 1))
          (doMosfetPWMWrite simBus 5 0 2 ⟨45, 0⟩ stuckWorld).2.log
        = writesTo (I2C_MEM_PWM1 + 2 * ((2 : Int).toNat - 1))
            (doBoardInit simBus 0 stuckWorld).2.log + 10) ∧
    ((doMosfetPWMWrite readOnlyBus 5 0 2 ⟨45, 0⟩ stuckWorld).1 = FAIL ∧
      (doMosfetPWMWrite readOnlyBus 5 0 2 ⟨45, 0⟩ stuckWorld).2.out
        = stuckWorld.out ++ ["Fail to write mosfet or not PWM capable board\n"]) ∧
    (∃ w2, doMosfetWrite simBus 0 5 0 2 StateArg.wordOn stuckWorld = some (FAIL, w2) ∧
      w2.out = stuckWorld.out ++ ["Fail to write mosfet\n"] ∧
      outportWrites w2.log = outportWrites (doBoardInit simBus 0 stuckWorld).2.log + 10) ∧
    (∃ w2, doMosfetWrite readOnlyBus 0 5 0 2 StateArg.wordOn stuckWorld = some (FAIL, w2) ∧
      w2.out = stuckWorld.out ++ ["Fail to write mosfet\n"]) ∧
    "Fail to write mosfet\n" ≠ "Fail to write mosfet or not PWM capable board\n" :=
  failure_reports stuckWorld 0 0 2 StateArg.wordOn ON ⟨45, 0⟩ (by decide) (by decide) rfl
    (by decide) (by decide) rfl (fun _ => rfl) (by decide) (by decide) (by decide)

/-! ## Board locator: one-time initialization -/

theorem doBoardInitExpander_log (B : Bus σ) (dev : Int) (cfg : Nat) (w : World σ) :
    (doBoardInitExpander B dev cfg w).2.log =
      w.log ++
        (if cfg = 0 then []
         else if 0 > (B.i2cMem8Write w.bus dev MOSFET8_CFG_REG_ADD [0]).1 then
           [Txn.write dev MOSFET8_CFG_REG_ADD [0]]
         else [Txn.write dev MOSFET8_CFG_REG_ADD [0],
               Txn.write dev MOSFET8_OUTPORT_REG_ADD [0xff]]) := by
  unfold doBoardInitExpander
  by_cases hc : cfg = 0
  · simp [hc]
  · by_cases h1 : 0 > (B.i2cMem8Write w.bus dev MOSFET8_CFG_REG_ADD [0]).1
    · simp [hc, i2cMem8Write, h1]
    · by_cases h2 : 0 > (B.i2cMem8Write (B.i2cMem8Write w.bus dev MOSFET8_CFG_REG_ADD [0]).2
          dev MOSFET8_OUTPORT_REG_ADD [0xff]).1
      · simp [hc, i2cMem8Write, h1, h2]
      · simp [hc, i2cMem8Write, h1, h2]

/-- The log of `doBoardInit` when the primary probe succeeds. -/
theorem doBoardInit_log_primary (B : Bus σ) (stack : Int) (w : World σ)
    (hs : ¬ (stack < 0 ∨ stack > 7)) (hopen1 : (primaryProbe B stack w).1 ≠ -1)
    (hp : (primaryProbe B stack w).2.1 ≠ ERROR) :
    (doBoardInit B stack w).2.log =
      w.log ++ [Txn.setup (primaryAdd stack),
                Txn.read (primaryProbe B stack w).1 MOSFET8_CFG_REG_ADD 1] ++
        (if buffAt (primaryProbe B stack w).2.2.1 0 = 0 then []
         else if 0 > (B.i2cMem8Write (primaryProbe B stack w).2.2.2 (primaryProbe B stack w).1
                        MOSFET8_CFG_REG_ADD [0]).1 then
           [Txn.write (primaryProbe B stack w).1 MOSFET8_CFG_REG_ADD [0]]
         else [Txn.write (primaryProbe B stack w).1 MOSFET8_CFG_REG_ADD [0],
               Txn.write (primaryProbe B stack w).1 MOSFET8_OUTPORT_REG_ADD [0xff]]) := by
  simp only [primaryProbe, probeAnswer, primaryAdd] at hopen1 hp ⊢
  have hp2 : ¬ ERROR = (B.i2cMem8Read
      (B.i2cSetup w.bus (xorInt (stack + MOSFET8_HW_I2C_BASE_ADD) 0x07)).2
      (B.i2cSetup w.bus (xorInt (stack + MOSFET8_HW_I2C_BASE_ADD) 0x07)).1
      MOSFET8_CFG_REG_ADD 1).1 := fun h => hp h.symm
  simp only [doBoardInit, hs, if_false, i2cSetup, hopen1, i2cMem8Read, hp2,
    doBoardInitExpander_log]
  simp

/-- The log of `doBoardInit` when the primary probe fails and the alternate succeeds. -/
theorem doBoardInit_log_alternate (B : Bus σ) (stack : Int) (w : World σ)
    (hs : ¬ (stack < 0 ∨ stack > 7)) (hopen1 : (primaryProbe B stack w).1 ≠ -1)
    (hopen2 : (alternateProbe B stack w).1 ≠ -1)
    (hp : ¬ (primaryProbe B stack w).2.1 ≠ ERROR)
    (hq : (alternateProbe B stack w).2.1 ≠ ERROR) :
    (doBoardInit B stack w).2.log =
      w.log ++ [Txn.setup (primaryAdd stack),
                Txn.read (primaryProbe B stack w).1 MOSFET8_CFG_REG_ADD 1,
                Txn.setup (alternateAdd stack),
                Txn.read (alternateProbe B stack w).1 MOSFET8_CFG_REG_ADD 1] ++
        (if buffAt (alternateProbe B stack w).2.2.1 0 = 0 then []
         else if 0 > (B.i2cMem8Write (alternateProbe B stack w).2.2.2
                        (alternateProbe B stack w).1 MOSFET8_CFG_REG_ADD [0]).1 then
           [Txn.write (alternateProbe B stack w).1 MOSFET8_CFG_REG_ADD [0]]
         else [Txn.write (alternateProbe B stack w).1 MOSFET8_CFG_REG_ADD [0],
               Txn.write (alternateProbe B stack w).1 MOSFET8_OUTPORT_REG_ADD [0xff]]) := by
  simp only [alternateProbe, primaryProbe, probeAnswer, primaryAdd, alternateAdd]
    at hopen1 hopen2 hp hq ⊢
  have hp2 : ERROR = (B.i2cMem8Read
      (B.i2cSetup w.bus (xorInt (stack + MOSFET8_HW_I2C_BASE_ADD) 0x07)).2
      (B.i2cSetup w.bus (xorInt (stack + MOSFET8_HW_I2C_BASE_ADD) 0x07)).1
      MOSFET8_CFG_REG_ADD 1).1 := (not_not.mp hp).symm
  have hq2 := fun h => hq (Eq.symm h)
  simp only [doBoardInit, hs, if_false, i2cSetup, hopen1, i2cMem8Read, ← hp2, if_true,
    hopen2]
  rw [if_neg hq2]
  simp only [doBoardInitExpander_log]
  simp

/-- C11, as stated, fails: on a bus of read-only devices the primary probe of stack
level 0 succeeds and reads the non-zero configuration byte `0xA5`, and the only write
`doBoardInit` issues is `0x00` to the configuration register; that write reports an
error and `0xFF` is never written to the output register. -/
theorem doBoardInit_init_writes_counterexample :
    (primaryProbe readOnlyBus 0 storingWorld).2.1 = OK ∧
    buffAt (primaryProbe readOnlyBus 0 storingWorld).2.2.1 0 = 0xA5 ∧
    (doBoardInit readOnlyBus 0 storingWorld).2.log.filter isWrite
      = [Txn.write 0x3f MOSFET8_CFG_REG_ADD [0]] := by
  decide

/-- C11 (amended): after a successful probe (primary or alternate) of a stack level in
0..7, `doBoardInit` issues bus writes if and only if the configuration byte it read is
non-zero.  In that case it writes `0x00` to the configuration register and then, unless
that write reports an error, `0xFF` to the output register, in that order, and nothing
else; when the byte is zero it issues no write.  `0xFF` decodes as all eight channels
OFF: `IOToMosfet 0xFF = 0`. -/
theorem doBoardInit_init_writes (B : Bus σ) (stack : Int) (w : World σ)
    (h0 : 0 ≤ stack) (h7 : stack ≤ 7)
    (hopen1 : (primaryProbe B stack w).1 ≠ -1) (hopen2 : (alternateProbe B stack w).1 ≠ -1)
    (hprobe : (locatedProbe B stack w).2.1 ≠ ERROR) :
    (doBoardInit B stack w).2.log.filter isWrite =
      w.log.filter isWrite ++
        (if buffAt (locatedProbe B stack w).2.2.1 0 = 0 then []
         else if 0 > (B.i2cMem8Write (locatedProbe B stack w).2.2.2 (locatedProbe B stack w).1
                        MOSFET8_CFG_REG_ADD [0]).1 then
           [Txn.write (locatedProbe B stack w).1 MOSFET8_CFG_REG_ADD [0]]
         else [Txn.write (locatedProbe B stack w).1 MOSFET8_CFG_REG_ADD [0],
               Txn.write (locatedProbe B stack w).1 MOSFET8_OUTPORT_REG_ADD [0xff]]) ∧
    IOToMosfet 0xff = 0 := by
  refine ⟨?_, by decide⟩
  have hs : ¬ (stack < 0 ∨ stack > 7) := by omega
  by_cases hp : (primaryProbe B stack w).2.1 ≠ ERROR
  · have hl : locatedProbe B stack w = primaryProbe B stack w := by
      unfold locatedProbe; exact if_pos hp
    rw [hl, doBoardInit_log_primary B stack w hs hopen1 hp]
    simp only [List.filter_append]
    congr 1
    · simp [isWrite]
    · split
      · rfl
      · split <;> simp [isWrite]
  · have hl : locatedProbe B stack w = alternateProbe B stack w := by
      unfold locatedProbe; exact if_neg hp
    rw [hl] at hprobe
    rw [hl, doBoardInit_log_alternate B stack w hs hopen1 hopen2 hp hprobe]
    simp only [List.filter_append]
    congr 1
    · simp [isWrite]
    · split
      · rfl
      · split <;> simp [isWrite]

theorem doBoardInit_init_writes_witness :
    (doBoardInit simBus 0 storingWorld).2.log.filter isWrite =
      storingWorld.log.filter isWrite ++
        (if buffAt (locatedProbe simBus 0 storingWorld).2.2.1 0 = 0 then []
         else if 0 > (simBus.i2cMem8Write (locatedProbe simBus 0 storingWorld).2.2.2
                        (locatedProbe simBus 0 storingWorld).1 MOSFET8_CFG_REG_ADD [0]).1 then
           [Txn.write (locatedProbe simBus 0 storingWorld).1 MOSFET8_CFG_REG_ADD [0]]
         else [Txn.write (locatedProbe simBus 0 storingWorld).1 MOSFET8_CFG_REG_ADD [0],
               Txn.write (locatedProbe simBus 0 storingWorld).1
                 MOSFET8_OUTPORT_REG_ADD [0xff]]) ∧
    IOToMosfet 0xff = 0 :=
  doBoardInit_init_writes simBus 0 storingWorld (by decide) (by decide) (by decide)
    (by decide) (by decide)

/-- The initialization on the simulated buses: an uninitialized board at the primary
address gets both writes; the board at the alternate address of level 3 whose
configuration register reads zero gets none. -/
theorem doBoardInit_init_examples :
    (doBoardInit simBus 0 storingWorld).2.log.filter isWrite
      = [Txn.write 0x3f 3 [0], Txn.write 0x3f 1 [0xff]] ∧
    (doBoardInit simBus 3 alternateOnlyWorld).1 = 0x24 ∧
    (doBoardInit simBus 3 alternateOnlyWorld).2.log.filter isWrite = [] := by
  decide

/-! ## Serial-link configuration record -/

/-- The byte image of a validated configuration. -/
theorem ModbusSetingsType.toBytes_valid (mode baud stopB parity add : Nat)
    (hb : baud ≤ 921600) (hm : mode ≤ 1) (hs : stopB ≤ 2) (hp : parity ≤ 2)
    (ha : add ≤ 255) :
    ModbusSetingsType.toBytes
      { mbBaud := baud % 2 ^ 24, mbType := mode % 16, mbParity := parity % 4,
        mbStopB := stopB % 4, add := add % 256 } =
    [baud % 256, baud / 256 % 256, baud / 65536, mode + 16 * parity + 64 * stopB, add] := by
  simp only [ModbusSetingsType.toBytes, ModbusSetingsType.word]
  norm_num
  refine ⟨?_, ?_, ?_, ?_, ?_⟩ <;> omega

/-- Decoding the byte image of a validated configuration gives the five values back. -/
theorem ModbusSetingsType.ofBytes_valid (mode baud stopB parity add : Nat)
    (hb : baud ≤ 921600) (hm : mode ≤ 1) (hs : stopB ≤ 2) (hp : parity ≤ 2)
    (ha : add ≤ 255) :
    ModbusSetingsType.ofBytes
      [baud % 256, baud / 256 % 256, baud / 65536, mode + 16 * parity + 64 * stopB, add] =
    { mbBaud := baud, mbType := mode, mbParity := parity, mbStopB := stopB, add := add } := by
  simp only [ModbusSetingsType.ofBytes, buffAt, u8, List.getD_cons_zero, List.getD_cons_succ]
  norm_num
  refine ⟨?_, ?_, ?_, ?_, ?_⟩ <;> omega

theorem I2C_MODBUS_SETINGS_ADD_eq : I2C_MODBUS_SETINGS_ADD = 23 := by decide

/-- Reading back five bytes just stored at the settings register. -/
theorem storeRegs_read5 (regs : Int → Nat → Nat) (dev : Int) (b0 b1 b2 b3 b4 : Nat) :
    (List.range 5).map
      (fun i => storeRegs regs dev 23 [b0, b1, b2, b3, b4] dev (23 + i)) =
    [b0, b1, b2, b3, b4] := by
  simp [storeRegs, List.range_succ]

/-- C12: for every serial-link configuration that passes validation (mode in {0,1},
baud in [1200, 921600], stop bits in {1,2}, parity in {0,1,2}, any address 0..255),
`cfg485Set` returns `OK` on a simulated bus that stores what is written, and its only
transaction is one write of a 5-byte record to the settings register: bytes 0-2 the
baud rate, little-endian; byte 3 the mode in bits 0-3, the parity in bits 4-5, the stop
bits in bits 6-7; byte 4 the address.  The five bytes read back from the bus decode to
the record with exactly these five field values, and `cfg485Get` returns `OK` and
prints the line `<mode> <baudrate> <stopbits> <parity> <add> ` followed by the mode,
the baud rate, the stop bits, the parity and the address, in decimal, separated by
blanks. -/
theorem cfg485Set_cfg485Get_roundtrip (w : World SimBus) (dev : Int)
    (mode baud stopB parity add : Nat)
    (hack : w.bus.ack dev = true) (hst : Stores w.bus)
    (hm : mode ≤ 1) (hb1 : 1200 ≤ baud) (hb2 : baud ≤ 921600)
    (hs1 : 1 ≤ stopB) (hs2 : stopB ≤ 2) (hp : parity ≤ 2) (ha : add ≤ 255) :
    (cfg485Set simBus dev mode baud stopB parity add w).1 = OK ∧
    (cfg485Set simBus dev mode baud stopB parity add w).2.log =
      w.log ++ [Txn.write dev I2C_MODBUS_SETINGS_ADD
        [baud % 256, baud / 256 % 256, baud / 65536, mode + 16 * parity + 64 * stopB, add]] ∧
    ModbusSetingsType.ofBytes
        (simBus.i2cMem8Read (cfg485Set simBus dev mode baud stopB parity add w).2.bus dev
          I2C_MODBUS_SETINGS_ADD 5).2.1 =
      { mbBaud := baud, mbType := mode, mbParity := parity, mbStopB := stopB, add := add } ∧
    (cfg485Get simBus dev (cfg485Set simBus dev mode baud stopB parity add w).2).1 = OK ∧
    (cfg485Get simBus dev (cfg485Set simBus dev mode baud stopB parity add w).2).2.out =
      (cfg485Set simBus dev mode baud stopB parity add w).2.out ++
        ["<mode> <baudrate> <stopbits> <parity> <add> " ++ toString mode ++ " " ++
          toString baud ++ " " ++ toString stopB ++ " " ++ toString parity ++ " " ++
          toString add ++ "\n"] := by
  have hl := hst w.bus.nwr
  have c1 : ¬ (baud > 921600 ∨ baud < 1200) := by omega
  have c2 : ¬ mode > 1 := by omega
  have c3 : ¬ (stopB < 1 ∨ stopB > 2) := by omega
  have c4 : ¬ parity > 2 := by omega
  have hbytes := ModbusSetingsType.toBytes_valid mode baud stopB parity add hb2 hm hs2 hp ha
  have hdec := ModbusSetingsType.ofBytes_valid mode baud stopB parity add hb2 hm hs2 hp ha
  have hrd := storeRegs_read5 w.bus.regs dev (baud % 256) (baud / 256 % 256) (baud / 65536)
    (mode + 16 * parity + 64 * stopB) add
  by_cases hadd : add < 1
  · simp only [cfg485Set, c1, c2, c3, c4, if_false, hadd, if_true, hbytes, i2cMem8Write, printf,
      simBus_write_ack, hack, hl, ne_eq, not_true_eq_false, cfg485Get, i2cMem8Read,
      simBus_read_ack, I2C_MODBUS_SETINGS_ADD_eq, hrd, hdec, cfg485Line]
    simp
  · simp only [cfg485Set, c1, c2, c3, c4, if_false, hadd, hbytes, i2cMem8Write, printf,
      simBus_write_ack, hack, hl, ne_eq, not_true_eq_false, if_true, cfg485Get, i2cMem8Read,
      simBus_read_ack, I2C_MODBUS_SETINGS_ADD_eq, hrd, hdec, cfg485Line]
    simp

theorem cfg485Set_cfg485Get_roundtrip_witness :
    (cfg485Set simBus 0x3f 1 9600 1 0 1 storingWorld).1 = OK ∧
    (cfg485Set simBus 0x3f 1 9600 1 0 1 storingWorld).2.log =
      storingWorld.log ++ [Txn.write 0x3f I2C_MODBUS_SETINGS_ADD
        [9600 % 256, 9600 / 256 % 256, 9600 / 65536, 1 + 16 * 0 + 64 * 1, 1]] ∧
    ModbusSetingsType.ofBytes
        (simBus.i2cMem8Read (cfg485Set simBus 0x3f 1 9600 1 0 1 storingWorld).2.bus 0x3f
          I2C_MODBUS_SETINGS_ADD 5).2.1 =
      { mbBaud := 9600, mbType := 1, mbParity := 0, mbStopB := 1, add := 1 } ∧
    (cfg485Get simBus 0x3f (cfg485Set simBus 0x3f 1 9600 1 0 1 storingWorld).2).1 = OK ∧
    (cfg485Get simBus 0x3f (cfg485Set simBus 0x3f 1 9600 1 0 1 storingWorld).2).2.out =
      (cfg485Set simBus 0x3f 1 9600 1 0 1 storingWorld).2.out ++
        ["<mode> <baudrate> <stopbits> <parity> <add> " ++ toString 1 ++ " " ++
          toString 9600 ++ " " ++ toString 1 ++ " " ++ toString 0 ++ " " ++
          toString 1 ++ "\n"] :=
  cfg485Set_cfg485Get_roundtrip storingWorld 0x3f 1 9600 1 0 1 rfl (fun _ => rfl)
    (by decide) (by decide) (by decide) (by decide) (by decide) (by decide) (by decide)

/-- The example of the help text, `cfg485wr 1 9600 1 0 1`, and a configuration at the
upper ends of the ranges with address `0`: the record written and the text printed. -/
theorem cfg485_examples :
    (cfg485Set simBus 0x3f 1 9600 1 0 1 storingWorld).2.log
      = [Txn.write 0x3f 23 [0x80, 0x25, 0x00, 0x41, 0x01]] ∧
    (cfg485Get simBus 0x3f (cfg485Set simBus 0x3f 1 9600 1 0 1 storingWorld).2).2.out
      = ["<mode> <baudrate> <stopbits> <parity> <add> 1 9600 1 0 1\n"] ∧
    (cfg485Set simBus 0x3f 1 921600 2 2 0 storingWorld).2.log
      = [Txn.write 0x3f 23 [0x00, 0x10, 0x0e, 0xa1, 0x00]] ∧
    (cfg485Get simBus 0x3f (cfg485Set simBus 0x3f 1 921600 2 2 0 storingWorld).2).2.out
      = ["Invalid MODBUS device address: [1, 255]!\n",
         "<mode> <baudrate> <stopbits> <parity> <add> 1 921600 2 2 0\n"] := by
  decide

/-! ## The bus lock -/

/-- C13 (what the code does): the critical sections of two processes can overlap.
Two processes start together on the fresh semaphore: the first waits
(3 → 2), the second waits (2 → 1), the first reads 1, waits again (1 → 0), reads 0 and
leaves `waitForI2C`; the second then reads 0 and leaves `waitForI2C` too.  No timeout
is involved, and both are in their commands at once. -/
theorem waitForI2C_overlap :
    ∃ s, runSchedule [stepFirst, stepSecond, stepFirst, stepFirst, stepFirst, stepFirst,
                      stepSecond, stepSecond] initSys = some s ∧
      s.p0.pc = Pc.critical ∧ s.p1.pc = Pc.critical ∧ s.count = 0 :=
  ⟨{ count := 0, p0 := { pc := Pc.critical, semVal := 0 },
     p1 := { pc := Pc.critical, semVal := 0 } }, by decide, rfl, rfl, rfl⟩

/-- A process alone on the fresh semaphore, step by step: three waits, each followed
by a read of the count, then the loop is left with the count at `0`. -/
theorem waitForI2C_alone_steps :
    runSchedule (List.replicate 7 stepFirst) initSys =
      some { count := 0, p0 := { pc := Pc.critical, semVal := 0 },
             p1 := { pc := Pc.waiting, semVal := 2 } } := by
  decide

theorem semTimedwaitRestart_aloneSem (fuel : Nat) (r : SimSem) :
    semTimedwaitRestart aloneSem (fuel + 1) r =
      some ((aloneSem.sem_timedwait r).1, (aloneSem.sem_timedwait r).2.2) := by
  rw [semTimedwaitRestart]
  by_cases h : r.count > 0
  · simp [aloneSem, h]
  · simp [aloneSem, h, ETIMEDOUT, EINTR]

/-- Alone from a count `n + 1`, the loop of `waitForI2C` decrements `n + 1` times and
returns `0` with the count at `0`. -/
theorem waitForI2CLoop_aloneSem (fuel0 : Nat) (w : World σ) :
    ∀ (n d fuel : Nat) (semVal : Int), 0 < semVal → n + 2 ≤ fuel →
      waitForI2CLoop aloneSem (fuel0 + 1) fuel semVal { count := n + 1, decs := d } w =
        some (0, { count := 0, decs := d + (n + 1) }, w) := by
  intro n
  induction n with
  | zero =>
    intro d fuel semVal hpos hfuel
    obtain ⟨k, rfl⟩ : ∃ k, fuel = k + 2 := ⟨fuel - 2, by omega⟩
    rw [waitForI2CLoop]
    simp only [hpos, if_true, semTimedwaitRestart_aloneSem]
    simp [aloneSem, waitForI2CLoop]
  | succ n ih =>
    intro d fuel semVal hpos hfuel
    obtain ⟨k, rfl⟩ : ∃ k, fuel = k + 1 := ⟨fuel - 1, by omega⟩
    rw [waitForI2CLoop]
    simp only [hpos, if_true, semTimedwaitRestart_aloneSem]
    have := ih (d + 1) k ((n + 1 : Nat) : Int) (by positivity) (by omega)
    simp only [aloneSem] at this ⊢
    simp only [Nat.add_sub_cancel, gt_iff_lt, Nat.zero_lt_succ, if_true]
    have hne : ¬ ((0 : Int) = -1) := by decide
    simp only [hne, if_false]
    rw [this]
    simp only [Option.some.injEq, Prod.mk.injEq, and_true, true_and, SimSem.mk.injEq]
    omega

/-- C15: from any pass through its loop (any `semVal > 0`; `waitForI2C` enters with
`semVal = 2`), `waitForI2C` returns `0` as soon as the value `sem_getvalue` gives after
a wait attempt is `0` (or less), whether `sem_timedwait` returned `0` after a decrement
or `-1` on its timeout.  On a semaphore that stays at `0` for the whole timeout it
returns `0` with no decrement made, and `main` then runs the command (and
`releaseI2C` posts, leaving the count at `1`).  Alone from a count `n ≥ 1` it
decrements `n` times and leaves the count at `0`. -/
theorem waitForI2C_returns_on_zero {ρ : Type} (S : SemOps ρ) (fuel n argc : Nat) (r : ρ)
    (semVal : Int) (w : World σ) (f : World σ → Option (Int × World σ))
    (hargc : argc ≠ 1) (hn : 1 ≤ n) (hsem : 0 < semVal)
    (hclock : (S.clock_gettime r).1 ≠ -1)
    (hwait : ¬ ((S.sem_timedwait (S.clock_gettime r).2).1 = -1 ∧
      (S.sem_timedwait (S.clock_gettime r).2).2.1 = EINTR))
    (hval : (S.sem_getvalue (S.sem_timedwait (S.clock_gettime r).2).2.2).1 ≤ 0) :
    waitForI2CLoop S (fuel + 2) (fuel + 2) semVal r w =
      some (0, (S.sem_getvalue (S.sem_timedwait (S.clock_gettime r).2).2.2).2, w) ∧
    waitForI2C aloneSem (fuel + 2) { count := 0, decs := 0 } w =
      some (0, { count := 0, decs := 0 }, w) ∧
    main aloneSem (fuel + 2) argc (some f) { count := 0, decs := 0 } w =
      (f w).map (fun c => (c.1, { count := 1, decs := 0 }, c.2)) ∧
    waitForI2C aloneSem (fuel + n + 1) { count := n, decs := 0 } w =
      some (0, { count := 0, decs := n }, w) := by
  have hzero : waitForI2C aloneSem (fuel + 2) { count := 0, decs := 0 } w =
      some (0, { count := 0, decs := 0 }, w) := by
    simp [waitForI2C, waitForI2CLoop, semTimedwaitRestart, aloneSem, ETIMEDOUT, EINTR]
  refine ⟨?_, hzero, ?_, ?_⟩
  · have hv : ¬ (S.sem_getvalue (S.sem_timedwait (S.clock_gettime r).2).2.2).1 > 0 := by omega
    have h2 : semVal > 0 := hsem
    simp only [waitForI2CLoop, h2, if_true, hclock, if_false, semTimedwaitRestart,
      hwait, hv]
  · simp only [main, hargc, if_false, hzero]
    cases hf : f w with
    | none => rfl
    | some c => simp [releaseI2C, aloneSem]
  · obtain ⟨m, rfl⟩ : ∃ m, n = m + 1 := ⟨n - 1, by omega⟩
    have := waitForI2CLoop_aloneSem (fuel + (m + 1)) w m 0 (fuel + (m + 1) + 1) 2 (by decide)
      (by omega)
    simpa [waitForI2C] using this

theorem waitForI2C_returns_on_zero_witness :
    waitForI2CLoop aloneSem (0 + 2) (0 + 2) 2 ({ count := 0, decs := 0 } : SimSem)
        storingWorld =
      some (0, (aloneSem.sem_getvalue (aloneSem.sem_timedwait
        (aloneSem.clock_gettime { count := 0, decs := 0 }).2).2.2).2, storingWorld) ∧
    waitForI2C aloneSem (0 + 2) { count := 0, decs := 0 } storingWorld =
      some (0, { count := 0, decs := 0 }, storingWorld) ∧
    main aloneSem (0 + 2) 4 (some (doMosfetWrite simBus 2 4 0 5 StateArg.wordOn))
        { count := 0, decs := 0 } storingWorld =
      (doMosfetWrite simBus 2 4 0 5 StateArg.wordOn storingWorld).map
        (fun c => (c.1, { count := 1, decs := 0 }, c.2)) ∧
    waitForI2C aloneSem (0 + 3 + 1) { count := 3, decs := 0 } storingWorld =
      some (0, { count := 0, decs := 3 }, storingWorld) :=
  waitForI2C_returns_on_zero aloneSem 0 3 4 { count := 0, decs := 0 } 2 storingWorld
    (doMosfetWrite simBus 2 4 0 5 StateArg.wordOn) (by decide) (by decide) (by decide)
    (by decide) (by decide) (by decide)

/-! ## Self test -/

/-- The path of `doTest` that ends with the verdict issues `mosfetSet(dev, 0)` last: the
write of `0xff` to the output register. -/
theorem doTestVerdict_log (B : Bus σ) (env : TestEnv) (dev : Int) (file : Bool)
    (mosfetResult : Int) (w : World σ) :
    (doTestVerdict B env dev file mosfetResult w).1 = OK ∧
    (doTestVerdict B env dev file mosfetResult w).2.1.log =
      w.log ++ [Txn.write dev MOSFET8_OUTPORT_REG_ADD [0xff]] := by
  have h : mosfetToIO 0 = 0xff := by decide
  cases file <;> simp [doTestVerdict, mosfetSet, i2cMem8Write, printf, h]

/-- C14 (what the code does): the self test on an initialized board, nobody pressing a
key, behind a bus whose third write transaction reports an error.  Channels 1 and 2
are switched on, the write for channel 3 fails, and `doTest` returns `FAIL` at once:
the write `mosfetSet(dev, 0)` would issue (`0xff` to the output register) is not among
its writes, and the output register still shows channels 1 and 2 ON (value `3`).  On
the path that ends with the verdict the last transaction is that write and every
channel is OFF. -/
theorem doTest_abort_skips_mosfetSet :
    (doTest (failAtBus 2) noKeyEnv 3 3 0 true initializedWorld).map
        (fun r => (r.1, r.2.1.log.filter isWrite, IOToMosfet (u8 (r.2.1.bus.regs 0x3f 1))))
      = some (FAIL, [Txn.write 0x3f 1 [0xfe], Txn.write 0x3f 1 [0xfc], Txn.write 0x3f 1 [0xf8]],
              3) ∧
    (mosfetSet (failAtBus 2) 0x3f 0 initializedWorld).2.log = [Txn.write 0x3f 1 [0xff]] ∧
    (doTest simBus yesAfterThreeEnv 3 3 0 true initializedWorld).map
        (fun r => (r.1, r.2.1.log.getLast?, IOToMosfet (u8 (r.2.1.bus.regs 0x3f 1)), r.2.1.out))
      = some (OK, some (Txn.write 0x3f 1 [0xff]), 0,
              [testPrompt, "Mosfet Test ............................ PASS\n"]) := by
  decide

end Mosfet8
